import Mathlib

/-!
# Verification of the UnifyML / Φ-ML core tensor representation

Shallow embedding of `src/phiml/math/_tensors.py`: the polymorphic tensor
representations (`NativeTensor`, `TensorStack`, `Layout`), the tree
flatten/unflatten protocol (`disassemble_tree` / `assemble_tree`), the
broadcast & cache engine (`cached`, `broadcastable_native_tensors`), the
double-dispatch driver (`custom_op2`), the equality-mode stack and the
equality operators.

Conventions of the embedding:

* Python values that can appear in the trees are modelled by the single
  inductive `PyObj`; the `Tensor` subclasses are the constructors
  `nativeT` / `stackT` / `layoutT` (plus `foreignT`, see below).
* Backend arrays are `NArr`: a flat row-major data list together with its
  dimension sizes, plus a flag recording whether the object is a NumPy
  `ndarray` (as opposed to a Python scalar or another backend's array);
  `assemble_tree` branches on exactly that flag.
* The `Shape` collaborator (`phiml/math/_shape.py`, not part of the shown
  sources) is modelled from the spec (sections 3, 4.5 and 6): a shape is a
  `List Dim`, a dimension has a name, a type and a size, and a size is
  either an integer or (for non-uniform shapes) a per-index list of sizes
  that vary along a named stack dimension.
* Exceptions are modelled by `Option` / `Op2Res.err`; Python's
  `NotImplemented` sentinel is `Op2Res.nh`.
* Every function that recurses through a `PyObj` tree takes an explicit
  `fuel : Nat` that decreases by one on every recursive call, so that all
  definitions are structurally recursive and kernel-reducible.
-/

/-- Scalar values stored in backend arrays: integers, booleans and the
floating-point `nan` (the only float behaviour the verified code paths
depend on is that `nan` compares unequal to everything). -/
inductive PyVal where
  | intV (n : Int)
  | boolV (b : Bool)
  | nanV
deriving DecidableEq, Repr, Inhabited

/-- A backend-native array: row-major `data` with axis sizes `dims`.
`isNumpy` records whether the Python object is a `numpy.ndarray`
(`assemble_tree` converts zero-rank NumPy arrays back to Python scalars,
which are modelled as `isNumpy = false`, `dims = []`). -/
structure NArr where
  isNumpy : Bool
  dims : List Nat
  data : List PyVal
deriving DecidableEq, Repr, Inhabited

/-- Dimension types of the shape collaborator (spec section 3). -/
inductive DimType where
  | batch | dual | instanceD | spatial | channel | untyped
deriving DecidableEq, Repr, Inhabited

/-- Modelled from the spec: a dimension size is either a plain integer or,
for non-uniform shapes, a tensor of sizes; the size tensor of a rank-1
non-uniform shape has a single dimension, recorded here as the name/type it
varies along together with the per-index sizes (spec section 3, "sizes may
themselves be tensors"). -/
inductive Size where
  | uni (n : Nat)
  | varying (alongName : String) (alongType : DimType) (ns : List Nat)
deriving DecidableEq, Repr, Inhabited

/-- Modelled from the spec: one dimension descriptor `(name, type, size)`
of the `Shape` collaborator (spec section 3). Item names are not modelled;
no verified code path depends on them. -/
structure Dim where
  name : String
  type : DimType
  size : Size
deriving DecidableEq, Repr, Inhabited

/-- A shape is an ordered list of dimensions with unique names. -/
abbrev PhShape := List Dim

-- ------------------------------------------------------------------
-- Row-major array helpers (the Backend collaborator's kernels,
-- modelled from the spec, section 6: transpose / reshape / tile /
-- stack / concat / unstack and shape introspection).
-- ------------------------------------------------------------------

/-- Product of a size list (number of elements of an array). -/
def prodL (l : List Nat) : Nat := l.foldr (· * ·) 1

/-- Multi-index of the `i`-th element of a row-major array with sizes
`dims`. -/
def unrankIx : List Nat → Nat → List Nat
  | [], _ => []
  | _d :: rest, i => (i / prodL rest) :: unrankIx rest (i % prodL rest)

/-- Flat row-major position of a multi-index. -/
def rankIx : List Nat → List Nat → Nat
  | _d :: ds, i :: is => i * prodL ds + rankIx ds is
  | _, _ => 0

/-- Element of an array at a multi-index (0 for out-of-range reads, which
well-formed inputs never perform). -/
def NArr.getAt (a : NArr) (ix : List Nat) : PyVal :=
  a.data.getD (rankIx a.dims ix) (.intV 0)

/-- `backend.transpose(a, perm)`: axis `j` of the result is axis `perm[j]`
of the input. -/
def NArr.transpose (a : NArr) (perm : List Nat) : NArr :=
  let dims' := perm.map (fun j => a.dims.getD j 0)
  { isNumpy := a.isNumpy
    dims := dims'
    data := (List.range (prodL dims')).map (fun i =>
      let ix' := unrankIx dims' i
      a.getAt ((List.range a.dims.length).map (fun k => ix'.getD (perm.indexOf k) 0))) }

/-- Inserting singleton axes (`array[tuple(slices)]` with `None` entries):
`isOld j = true` marks positions taken from the input in order, `false`
positions become new size-1 axes. Row-major data is unchanged. -/
def NArr.expandAxes (a : NArr) (isOld : List Bool) : NArr :=
  let dims' := (isOld.foldl (fun (acc : List Nat × List Nat) old =>
    if old then (acc.1 ++ [acc.2.headD 1], acc.2.tail) else (acc.1 ++ [1], acc.2))
    ([], a.dims)).1
  { a with dims := dims' }

/-- `backend.tile(a, multiples)`: repeat each axis; `result[ix] = a[ix mod dims]`. -/
def NArr.tile (a : NArr) (multiples : List Nat) : NArr :=
  let dims' := a.dims.zipWith (· * ·) multiples
  { isNumpy := a.isNumpy
    dims := dims'
    data := (List.range (prodL dims')).map (fun i =>
      a.getAt ((unrankIx dims' i).zipWith (fun ix d => if d = 0 then 0 else ix % d) a.dims)) }

/-- Remove the element at position `k`. -/
def removeAtL {α} (k : Nat) (l : List α) : List α := l.take k ++ l.drop (k + 1)

/-- Insert `x` at position `k`. -/
def insertAtL {α} (k : Nat) (x : α) (l : List α) : List α := l.take k ++ x :: l.drop k

/-- `backend.stack(arrs, axis)`: new axis of size `arrs.length` at `axis`. -/
def stackA (arrs : List NArr) (axis : Nat) : NArr :=
  let cdims := (arrs.headD default).dims
  let dims' := insertAtL axis arrs.length cdims
  { isNumpy := (arrs.headD default).isNumpy
    dims := dims'
    data := (List.range (prodL dims')).map (fun i =>
      let ix := unrankIx dims' i
      ((arrs.getD (ix.getD axis 0) default)).getAt (removeAtL axis ix)) }

/-- `backend.concat(arrs, axis)`: concatenate along an existing axis. -/
def concatA (arrs : List NArr) (axis : Nat) : NArr :=
  let total := (arrs.map (fun a => a.dims.getD axis 0)).foldr (· + ·) 0
  let cdims := (arrs.headD default).dims
  let dims' := cdims.take axis ++ total :: cdims.drop (axis + 1)
  let pick : Nat → List NArr → PyVal → List Nat → PyVal := fun _ _ v _ => v
  { isNumpy := (arrs.headD default).isNumpy
    dims := dims'
    data := (List.range (prodL dims')).map (fun i =>
      let ix := unrankIx dims' i
      let j := ix.getD axis 0
      -- walk the pieces to locate the slab containing index j along `axis`
      let rec go : List NArr → Nat → PyVal
        | [], _ => .intV 0
        | a :: rest, off =>
          let s := a.dims.getD axis 0
          if j < off + s then a.getAt (ix.take axis ++ (j - off) :: ix.drop (axis + 1))
          else go rest (off + s)
      pick i arrs (go arrs 0) ix) }

/-- `backend.unstack(a, axis)`: split an axis into its slices. -/
def unstackA (a : NArr) (axis : Nat) : List NArr :=
  let rdims := removeAtL axis a.dims
  (List.range (a.dims.getD axis 0)).map (fun i =>
    { isNumpy := a.isNumpy
      dims := rdims
      data := (List.range (prodL rdims)).map (fun j =>
        a.getAt (insertAtL axis i (unrankIx rdims j))) })

/-- `backend.multi_slice(a, sels)`: `some i` indexes an axis away, `none`
keeps it. -/
def NArr.multiSlice (a : NArr) (sels : List (Option Nat)) : NArr :=
  let kept := (a.dims.zip (sels ++ List.replicate a.dims.length none)).filterMap
    (fun (d, s) => if s.isNone then some d else none)
  { isNumpy := a.isNumpy
    dims := kept
    data := (List.range (prodL kept)).map (fun j =>
      let small := unrankIx kept j
      let full := ((List.range a.dims.length).map (fun k =>
        match (sels.getD k none) with
        | some i => i
        | none => (small.getD ((List.range k).countP (fun j => (sels.getD j none).isNone)) 0)))
      a.getAt full) }

/-- NumPy broadcasting of two size lists: align from the right, pad the
shorter rank with 1, size-1 axes stretch. -/
def bcastDims (d1 d2 : List Nat) : List Nat :=
  let n := max d1.length d2.length
  let p1 := List.replicate (n - d1.length) 1 ++ d1
  let p2 := List.replicate (n - d2.length) 1 ++ d2
  p1.zipWith max p2

/-- Lift an elementwise scalar kernel to arrays with NumPy broadcasting
(this is how backend binary kernels behave on the transposed operands the
core hands them). -/
def liftKernel (vk : PyVal → PyVal → PyVal) (a b : NArr) : NArr :=
  let dims' := bcastDims a.dims b.dims
  let readBc := fun (x : NArr) (ix : List Nat) =>
    let ixr := ix.drop (ix.length - x.dims.length)
    x.getAt (ixr.zipWith (fun i d => if d = 1 then 0 else i) x.dims)
  { isNumpy := a.isNumpy || b.isNumpy
    dims := dims'
    data := (List.range (prodL dims')).map (fun i =>
      vk (readBc a (unrankIx dims' i)) (readBc b (unrankIx dims' i))) }

/-- Python `==` on scalar values: `nan` is unequal to everything,
including itself. -/
def valEq : PyVal → PyVal → Bool
  | .intV m, .intV n => m == n
  | .boolV a, .boolV b => a == b
  | _, _ => false

/-- Elementwise `backend.equal`. -/
def equalA : NArr → NArr → NArr := liftKernel (fun a b => .boolV (valEq a b))

/-- Elementwise `backend.not_equal`. -/
def notEqualA : NArr → NArr → NArr := liftKernel (fun a b => .boolV (!valEq a b))

-- ------------------------------------------------------------------
-- Shape collaborator operations (modelled from the spec, sections
-- 3, 4.5 and 6).
-- ------------------------------------------------------------------

/-- Names of a shape, in order. -/
def namesOf (s : PhShape) : List String := s.map Dim.name

/-- `name in shape`. -/
def containsName (s : PhShape) (n : String) : Bool := s.any (·.name == n)

/-- `shape.index(name)` (0 when absent; callers guard membership). -/
def indexOfName (s : PhShape) (n : String) : Nat :=
  (s.findIdx? (·.name == n)).getD 0

/-- `shape.get_size(name)` for a uniform dimension (0 for absent or
non-uniform sizes; the verified paths only ask for present uniform dims). -/
def getSizeOf (s : PhShape) (n : String) : Nat :=
  match s.find? (·.name == n) with
  | some d => match d.size with
    | .uni k => k
    | .varying _ _ _ => 0
  | none => 0

/-- `shape.without(names)`. -/
def withoutNames (s : PhShape) (ns : List String) : PhShape :=
  s.filter (fun d => !(ns.contains d.name))

/-- Integer sizes of a uniform shape (non-uniform sizes read as 0). -/
def uniSizes (s : PhShape) : List Nat :=
  s.map (fun d => match d.size with | .uni k => k | .varying _ _ _ => 0)

/-- `shape.is_non_uniform`. -/
def isNonUniformS (s : PhShape) : Bool :=
  s.any (fun d => match d.size with | .uni _ => false | .varying _ _ _ => true)

/-- `shape.is_uniform`. -/
def isUniformS (s : PhShape) : Bool := !isNonUniformS s

/-- Modelled from the spec: merging one dimension into an accumulated
shape — same-named dimensions must agree on type and size, otherwise the
merge fails with `IncompatibleShapes` (spec section 4.5). -/
def mergeDimInto (acc : Option PhShape) (d : Dim) : Option PhShape := do
  let acc ← acc
  match acc.find? (·.name == d.name) with
  | some d0 => if d0.type == d.type && d0.size == d.size then some acc else none
  | none => some (acc ++ [d])

/-- Modelled from the spec: `merge_shapes(*shapes)` — union of the inputs
in first-seen order with batch dimensions hoisted first; same-named
dimensions must agree on type and size (spec section 4.5). -/
def mergeShapesL (shapes : List PhShape) : Option PhShape := do
  let merged ← shapes.foldl (fun acc s => s.foldl mergeDimInto acc) (some [])
  some (merged.filter (·.type == .batch) ++ merged.filter (fun d => !(d.type == .batch)))

/-- `shape1 & shape2` (binary `merge_shapes`). -/
def mergeShapes2 (s1 s2 : PhShape) : Option PhShape := mergeShapesL [s1, s2]

/-- `Shape.is_compatible`: modelled from the spec as "the shapes merge"
(spec section 3: two shapes are compatible under the merge rules). -/
def isCompatibleS (s1 s2 : PhShape) : Bool := (mergeShapes2 s1 s2).isSome

/-- Modelled from the spec: `shape_stack(stack_dim, *shapes)` — the stack
dimension followed by the union of the component shapes; a dimension whose
sizes differ across components becomes non-uniform, varying along the
stack dimension (spec section 3; the position of the stack dimension is
not fixed by the spec, the model puts it first). -/
def shapeStack (sd : Dim) (shapes : List PhShape) : PhShape :=
  let allNames := (shapes.flatMap namesOf).eraseDups
  sd :: allNames.map (fun n =>
    let dims := shapes.filterMap (fun s => s.find? (·.name == n))
    let ty := (dims.headD ⟨n, .untyped, .uni 0⟩).type
    let sizes := shapes.map (fun s => getSizeOf s n)
    match dims.headD ⟨n, .untyped, .uni 0⟩ with
    | d0 => if dims.all (fun d => d.size == d0.size) && dims.length == shapes.length
        then ⟨n, ty, d0.size⟩
        else ⟨n, ty, .varying sd.name sd.type sizes⟩)

/-- `after_gather(shape, {name: i})` for an integer index: drop the
gathered dimension and resolve sizes that vary along it to their `i`-th
entry. -/
def afterGatherS (s : PhShape) (n : String) (i : Nat) : PhShape :=
  (s.filter (fun d => !(d.name == n))).map (fun d =>
    match d.size with
    | .varying an at_ ns => if an == n then ⟨d.name, d.type, .uni (ns.getD i 0)⟩
        else ⟨d.name, d.type, .varying an at_ ns⟩
    | .uni k => ⟨d.name, d.type, .uni k⟩)

/-- `shape.shape.without('dims')`: the dimensions along which the sizes of
a (non-uniform) shape vary. -/
def shapeOfShapeS (s : PhShape) : PhShape :=
  (s.filterMap (fun d => match d.size with
    | .varying an at_ ns => some (⟨an, at_, .uni ns.length⟩ : Dim)
    | .uni _ => none)).eraseDups

/-- Dimension-set equality (`set(shape1) == set(shape2)`). -/
def dimSetEq (s1 s2 : PhShape) : Bool :=
  s1.all (fun d => s2.contains d) && s2.all (fun d => s1.contains d)

-- ------------------------------------------------------------------
-- The value universe: Python objects and the Tensor variants.
-- ------------------------------------------------------------------

/-- Python objects as seen by the tree protocol and the operators.
The four final constructors are the `Tensor` subclasses:
`nativeT` is `NativeTensor(_native, _native_shape, _shape)`;
`stackT` is `TensorStack` with its constructor-computed `_varying_shapes`
and `_shape` fields stored (as the Python `__init__` does);
`layoutT` is `Layout(_obj, _stack_dim)` with its computed `_shape`;
`foreignT` is modelled from the spec: a sibling tensor representation
(such as the sparse formats of section 1/section 6) that is reached
through the same dispatch contract and reports "not handled" for
operations it does not support (section 4.6).
`shapeDict` models the serializable dict form of a `Shape`
(`Shape._to_dict` / `Shape._from_dict`, spec section 6). -/
inductive PyObj where
  | noneP
  | tup (xs : List PyObj)
  | listP (xs : List PyObj)
  | dict (entries : List (String × PyObj))
  | record (nm : String) (entries : List (String × PyObj))
  | native (arr : NArr)
  | strP (s : String)
  | obj (id : Nat)
  | shapeDict (sh : PhShape)
  | nativeT (arr : NArr) (nativeShape : PhShape) (shape : PhShape)
  | stackT (components : List PyObj) (stackDim : Dim) (varyingShapes : Bool) (shape : PhShape)
  | layoutT (o : PyObj) (stackDim : PhShape) (shape : PhShape)
  | foreignT (kind : String)
deriving Repr, Inhabited

/-- `isinstance(x, Tensor)`. -/
def isTensor : PyObj → Bool
  | .nativeT _ _ _ | .stackT _ _ _ _ | .layoutT _ _ _ | .foreignT _ => true
  | _ => false

def isNativeT : PyObj → Bool
  | .nativeT _ _ _ => true
  | _ => false

def isStackT : PyObj → Bool
  | .stackT _ _ _ _ => true
  | _ => false

def isLayoutT : PyObj → Bool
  | .layoutT _ _ _ => true
  | _ => false

/-- `tensor.shape` (the declared/expanded shape; stored on construction,
as in the Python classes). Non-tensors and foreign representations report
an empty shape. -/
def shapeOf : PyObj → PhShape
  | .nativeT _ _ s => s
  | .stackT _ _ _ s => s
  | .layoutT _ _ s => s
  | _ => []

/-- `type(x).__name__` for the dispatch error message. -/
def typeNameOf : PyObj → String
  | .nativeT _ _ _ => "NativeTensor"
  | .stackT _ _ _ _ => "TensorStack"
  | .layoutT _ _ _ => "Layout"
  | .foreignT k => k
  | _ => "object"

/-- `shape(obj, allow_unshaped=True)` at a layout leaf: a Tensor
contributes its shape, any other leaf is unshaped (spec section 3: Layout
leaves are arbitrary objects). -/
def leafShape (o : PyObj) : PhShape := if isTensor o then shapeOf o else []

/-- Number of elements of `obj` (`len(obj)`), for the containers the
layout walk visits. -/
def lenOf : PyObj → Option Nat
  | .tup xs | .listP xs => some xs.length
  | .dict es => some es.length
  | _ => none

/-- Resolve a dimension size to an integer under an environment of
already-gathered stack indices (used by the layout shape walk, which in
the Python source resolves sizes step by step via `after_gather`). -/
def resolveSize (env : List (String × Nat)) : Size → Nat
  | .uni n => n
  | .varying an _ ns =>
    match env.lookup an with
    | some i => ns.getD i 0
    | none => 0

/-- `Layout._recursive_get_shapes(obj, s)`: the leaf shapes of the nested
object, walking `s.rank` levels; `env` carries the stack indices gathered
so far (the source updates `s` itself with `after_gather` at each level,
which resolves exactly the sizes this environment resolves). -/
def recGetShapes : PhShape → List (String × Nat) → PyObj → List PhShape
  | [], _, o => [leafShape o]
  | d :: rest, env, o =>
    match o with
    | .tup xs | .listP xs =>
        (xs.enum.map (fun (i, x) => recGetShapes rest ((d.name, i) :: env) x)).flatten
    | .dict es =>
        (es.enum.map (fun (i, kv) => recGetShapes rest ((d.name, i) :: env) kv.2)).flatten
    | o => List.replicate (prodL ((d :: rest).map (fun d' => resolveSize env d'.size))) (leafShape o)

/-- Modelled from the spec: `shape_stack(stack_dim, *obj_shapes,
stack_dim_first=True)` for the (possibly rank > 1) layout stack dimension:
the stack dimensions followed by the union of the leaf shapes; leaf
dimensions whose sizes differ become non-uniform along the first stack
dimension (spec section 3). -/
def layoutShapeCalc (o : PyObj) (sd : PhShape) : PhShape :=
  let leafShapes := recGetShapes sd [] o
  let firstDim := sd.headD ⟨"", .untyped, .uni 0⟩
  let allNames := (leafShapes.flatMap namesOf).eraseDups
  sd ++ allNames.map (fun n =>
    let dims := leafShapes.filterMap (fun s => s.find? (·.name == n))
    let d0 := dims.headD ⟨n, .untyped, .uni 0⟩
    if dims.all (fun d => d.size == d0.size) && dims.length == leafShapes.length
      then d0
      else ⟨n, d0.type, .varying firstDim.name firstDim.type (leafShapes.map (fun s => getSizeOf s n))⟩)

/-- `Layout(obj, stack_dim)`: store the object, the stack dimension and
the shape computed by `__init__` (the debug-only checks of `__init__` are
warnings/assertions that hold by construction here). -/
def mkLayout (o : PyObj) (sd : PhShape) : PyObj :=
  .layoutT o sd (layoutShapeCalc o sd)

/-- `TensorStack.__init__(components, stack_dim)`: asserts that every
component is a Tensor and that `stack_dim.name` is absent from every
component's shape, sets `stack_dim.size = len(components)`, computes
`_varying_shapes` by attempting `merge_shapes` over the component shapes,
and computes `_shape = shape_stack(stack_dim, *shapes)`. A failed
assertion is `none`. The empty component list is rejected here as well:
the Python constructor accepts it but every subsequent operation fails on
`self._tensors[0]`. -/
def mkStack (cs : List PyObj) (sd : Dim) : Option PyObj :=
  match cs with
  | [] => none
  | _ =>
    if cs.all isTensor && cs.all (fun c => !(containsName (shapeOf c) sd.name)) then
      let sd' : Dim := ⟨sd.name, sd.type, .uni cs.length⟩
      let shapes := cs.map shapeOf
      some (.stackT cs sd' (mergeShapesL shapes).isNone (shapeStack sd' shapes))
    else none

/-- `TensorStack.requires_broadcast`: stored `_varying_shapes`, or a
non-uniform first-component shape. (`self._shape.well_defined` is always
true in the model — undefined sizes are not modelled; `_is_tracer` is
always false — tracers are external to the shown sources; `is_sparse` is
always false — the sparse variants are only reachable as `foreignT`.) -/
def requiresBroadcast : PyObj → Bool
  | .stackT cs _ vr _ => vr || isNonUniformS (shapeOf (cs.headD .noneP))
  | _ => false

-- ------------------------------------------------------------------
-- NativeTensor: native materialization and caching.
-- ------------------------------------------------------------------

/-- `NativeTensor._transposed_native(order, force_expand)`.
Fails (assert) iff some dimension of the backing array is missing from
`order`; then transposes the backed axes into the order requested,
inserts singleton axes for the remaining requested names and, when
`force_expand` is set, tiles those that are declared in the expanded
shape to their true size. Requested names absent from both shapes keep a
singleton axis. (The precision cast on the equal-order fast path is not
modelled; dtypes are outside the verified properties.) -/
def transposedNativeN (arr : NArr) (ns s : PhShape) (order : List String)
    (forceExpand : Bool) : Option NArr :=
  if !((namesOf ns).all (fun n => order.contains n)) then none
  else if order == namesOf ns then some arr
  else
    let presentInOrder := order.filter (fun n => containsName ns n)
    let perm := presentInOrder.map (indexOfName ns)
    let transposed := if perm == List.range perm.length then arr else arr.transpose perm
    if order.length == perm.length then some transposed
    else
      let expanded := transposed.expandAxes (order.map (fun n => containsName ns n))
      if forceExpand then
        let multiples := order.map (fun n =>
          if containsName s n && !(containsName ns n) then getSizeOf s n else 1)
        some (expanded.tile multiples)
      else some expanded

/-- `NativeTensor._cached()` (no dims argument: `cached()` always calls it
without one): if the native shape already equals the expanded shape the
tensor is returned unchanged, otherwise the array is materialized in the
expanded shape's order. -/
def nativeCached (arr : NArr) (ns s : PhShape) : Option PyObj :=
  if ns == s then some (.nativeT arr ns s)
  else do
    let a ← transposedNativeN arr ns s (namesOf s) true
    some (.nativeT a s s)

/-- `NativeTensor._unstack(dim)`: backend unstack along a backed axis;
along a purely virtual axis, `size`-many references to the unchanged
array. -/
def nativeUnstack (arr : NArr) (ns s : PhShape) (dim : String) : Option (List PyObj) :=
  let newShape := withoutNames s [dim]
  let newNative := withoutNames ns [dim]
  if containsName ns dim then
    some ((unstackA arr (indexOfName ns dim)).map (fun a => .nativeT a newNative newShape))
  else if containsName s dim then
    some (List.replicate (getSizeOf s dim) (.nativeT arr newNative newShape))
  else none

/-- `NativeTensor._getitem(selection)` for one integer selection
`{dim: i}`: index backed axes away, narrow virtual axes; an integer
selection on a dimension absent from the declared shape passes the
assert and is a no-op on the array. -/
def nativeGetItem (arr : NArr) (ns s : PhShape) (dim : String) (i : Nat) : PyObj :=
  let sels := ns.map (fun d => if d.name == dim then some i else none)
  let gathered := arr.multiSlice sels
  .nativeT gathered (afterGatherS ns dim i) (afterGatherS s dim i)

/-- `wrap(x)` for a Python scalar / bool (`tensor(data, convert=False)`,
scalar branch): a dimensionless `NativeTensor`. -/
def wrapScalar (a : NArr) : PyObj := .nativeT a [] []

/-- `wrap(b)` for a Python bool. -/
def wrapBool (b : Bool) : PyObj := wrapScalar ⟨false, [], [.boolV b]⟩

/-- `Layout.wrap(native, stack_dim)`: Tensors stay Tensors, Python
numbers and booleans are wrapped as dimensionless tensors, everything
else becomes a `Layout` over the remaining stack dimensions. -/
def layoutWrapF (native : PyObj) (sd : PhShape) : PyObj :=
  if isTensor native then native
  else match native with
    | .native a => if a.dims == ([] : List Nat) && !a.isNumpy then wrapScalar a
        else mkLayout (.native a) sd
    | o => mkLayout o sd

-- ------------------------------------------------------------------
-- The native-materialization family (`Tensor.native` with a name-list
-- order, `TensorStack._contiguous`, `Tensor._unstack`,
-- `Tensor._getitem`). Mutually recursive; `fuel` decreases on every
-- call.
-- ------------------------------------------------------------------

mutual

/-- `Tensor.native(order, force_expand)` for an explicit name order,
dispatched on the representation. For a `Layout` the Python method
returns the nested object itself, which is not a backend array; all uses
in array contexts are modelled as failure. A representation outside the
shown core (`foreignT`) inherits `Tensor._transposed_native`, which
raises `NotImplementedError`. -/
def tensorNativeF : Nat → PyObj → List String → Bool → Option NArr
  | 0, _, _, _ => none
  | f+1, t, order, forceExpand =>
    match t with
    | .nativeT arr ns s => transposedNativeN arr ns s order forceExpand
    | .stackT cs sd _ sh =>
      -- TensorStack._transposed_native
      if namesOf (withoutNames sh [sd.name]) == order.filter (fun n => !(n == sd.name)) then
        let innerOrder := order.filter (fun n => !(n == sd.name))
        if order.contains sd.name then do
          let natives ← cs.mapM (fun c => tensorNativeF f c innerOrder true)
          some (stackA natives (order.indexOf sd.name))
        else none
      else if isNonUniformS sh then none
      else do
        match ← contiguousF f t with
        | .nativeT arr ns s => transposedNativeN arr ns s order forceExpand
        | _ => none
    | .layoutT _ _ _ => none
    | _ => none

/-- `TensorStack._contiguous()` (and `NativeTensor._contiguous()` for the
native case). The Python method returns `None` for a broadcast-requiring
stack — modelled as `some .noneP`; exceptions are `none`. -/
def contiguousF : Nat → PyObj → Option PyObj
  | 0, _ => none
  | f+1, t =>
    match t with
    | .nativeT arr ns s =>
      if s == ns then some (.nativeT arr ns s)
      else do
        let a ← transposedNativeN arr ns s (namesOf s) true
        some (.nativeT a s s)
    | .stackT cs sd _ sh =>
      if requiresBroadcast t then some .noneP
      else if cs.all (fun c => isUniformS (shapeOf c)) then do
        let natives ← cs.mapM (fun c => tensorNativeF f c (namesOf sh) true)
        let native := concatA natives (indexOfName sh sd.name)
        some (.nativeT native sh sh)
      else do
        -- cache stack_dim on the inner tensors of a non-uniform stack
        let nud := shapeOfShapeS (shapeOf (cs.headD .noneP))
        match nud with
        | [nd] => do
          let unstacked ← cs.mapM (fun c => unstackF f c nd.name)
          let count := (unstacked.map List.length).foldr min (unstacked.headD []).length
          let stacked ← (List.range count).mapM (fun i => do
            let group := unstacked.map (fun l => l.getD i .noneP)
            let st ← mkStack group sd
            contiguousF f st)
          mkStack stacked nd
        | _ => none
    | _ => none

/-- `Tensor._unstack(dim)` dispatched on the representation. -/
def unstackF : Nat → PyObj → String → Option (List PyObj)
  | 0, _, _ => none
  | f+1, t, dim =>
    match t with
    | .nativeT arr ns s => nativeUnstack arr ns s dim
    | .stackT cs sd _ _ =>
      if dim == sd.name then some cs
      else if requiresBroadcast t then do
        let unstacked ← cs.mapM (fun c => unstackF f c dim)
        let count := (unstacked.map List.length).foldr min (unstacked.headD []).length
        (List.range count).mapM (fun i => mkStack (unstacked.map (fun l => l.getD i .noneP)) sd)
      else do
        match ← contiguousF f t with
        | .nativeT arr ns s => nativeUnstack arr ns s dim
        | _ => none
    | .layoutT o sd _ =>
      -- Layout._unstack: only the first stack dimension can be unstacked
      match sd with
      | d :: rest =>
        if dim == d.name then
          let items : List PyObj := match o with
            | .dict es => es.map (fun kv => kv.2)
            | .tup xs | .listP xs => xs
            | other => [other]
          some (items.map (fun n => layoutWrapF n rest))
        else none
      | [] => none
    | _ => none

/-- `Tensor.__getitem__` / `_getitem` for one integer selection
`{dim: i}`, dispatched on the representation. -/
def getItemF : Nat → PyObj → String → Nat → Option PyObj
  | 0, _, _, _ => none
  | f+1, t, dim, i =>
    match t with
    | .nativeT arr ns s => some (nativeGetItem arr ns s dim i)
    | .stackT cs sd _ _ =>
      if !(dim == sd.name) && !(requiresBroadcast t) then do
        match ← contiguousF f t with
        | .nativeT arr ns s => some (nativeGetItem arr ns s dim i)
        | _ => none
      else if dim == sd.name then
        match cs.getD i .noneP with
        | c => some c
      else do
        let tensors ← cs.mapM (fun c => getItemF f c dim i)
        mkStack tensors sd
    | .layoutT o sd _ =>
      let sels := sd.map (fun d => if d.name == dim then some i else none)
      do
        let native ← layoutGetRecF f o sels dim i
        some (layoutWrapF native (afterGatherS sd dim i))
    | _ => none

/-- `Layout._getitem_recursive(native, selection, sel_dict)` for integer
selections; `slice_` applied at the leaf slices Tensor leaves (a no-op on
dimensions they do not have) and leaves other objects unchanged. -/
def layoutGetRecF : Nat → PyObj → List (Option Nat) → String → Nat → Option PyObj
  | 0, _, _, _, _ => none
  | f+1, o, sels, dim, i =>
    match sels with
    | [] => some o
    | sel :: rest =>
      let items : Option (List PyObj) := match o with
        | .dict es => some (es.map (·.2))
        | .tup xs | .listP xs => some xs
        | _ => none
      match items with
      | none => none
      | some items =>
        match rest with
        | [] =>
          let picked := match sel with
            | none => o
            | some j => items.getD j .noneP
          if isTensor picked then getItemF f picked dim i else some picked
        | _ :: _ =>
          match sel with
          | none => do
            let sub ← items.mapM (fun n => layoutGetRecF f n rest dim i)
            some (match o with | .tup _ => .tup sub | _ => .listP sub)
          | some j => layoutGetRecF f (items.getD j .noneP) rest dim i

end

-- ------------------------------------------------------------------
-- Tree flatten/unflatten protocol and the cache engine.
-- ------------------------------------------------------------------

/-- Key lookup in a modelled Python dict. -/
def lookupEntry (es : List (String × PyObj)) (k : String) : Option PyObj :=
  (es.find? (fun kv => kv.1 == k)).map (fun kv => kv.2)

/-- `Shape._from_dict` (collaborator, spec section 6: shapes have a
serializable dict form); anything that is not a serialized shape raises. -/
def shapeFromDict : PyObj → Option PhShape
  | .shapeDict sh => some sh
  | _ => none

/-- Anonymous untyped dimensions `dim0, dim1, …` given to a raw backend
array found in a tree. -/
def anonDims (dims : List Nat) : PhShape :=
  dims.enum.map (fun (i, d) => ⟨"dim" ++ toString i, .untyped, .uni d⟩)

/-- Assemble a sequence of skeletons left to right, threading the
remaining leaf list through (the loop bodies of `assemble_tree` on
lists, tuples, dicts and records). -/
def assembleSeqF (asm : PyObj → List PyObj → Option (PyObj × List PyObj)) :
    List PyObj → List PyObj → Option (List PyObj × List PyObj)
  | [], values => some ([], values)
  | sk :: sks, values => do
    let (r, values') ← asm sk values
    let (rs, values'') ← assembleSeqF asm sks values'
    some (r :: rs, values'')

/-- As `assembleSeqF`, for keyed entries (dicts and records). -/
def assembleEntriesF (asm : PyObj → List PyObj → Option (PyObj × List PyObj)) :
    List (String × PyObj) → List PyObj → Option (List (String × PyObj) × List PyObj)
  | [], values => some ([], values)
  | kv :: es, values => do
    let (r, values') ← asm kv.2 values
    let (rs, values'') ← assembleEntriesF asm es values'
    some ((kv.1, r) :: rs, values'')

/-- `assemble_tree(obj, values)`: reverses `disassemble_tree`, consuming
leaves from the front of `values`; returns the rebuilt container together
with the remaining leaves (the Python function mutates the list in
place). Exceptions (popping from an exhausted list, a failed isinstance
assert, missing dict keys of a layout skeleton) are `none`. -/
def assembleTreeF : Nat → PyObj → List PyObj → Option (PyObj × List PyObj)
  | 0, _, _ => none
  | f+1, obj, values =>
    match obj with
    | .strP s =>
      if s == "__missing__" then some (.noneP, values)
      else if s == "__native__" then
        match values with
        | [] => none
        | v :: rest =>
          match v with
          | .nativeT arr _ sh =>
            -- zero-rank NumPy arrays come back as Python scalars (`.item()`)
            if arr.isNumpy && sh == ([] : PhShape) then
              some (.native { arr with isNumpy := false }, rest)
            else some (.native arr, rest)
          | _ => none
      else some (.strP s, values)
    | .noneP =>
      match values with
      | [] => none
      | v :: rest => if isTensor v then some (v, rest) else none
    | .listP xs => do
      let (rs, rest) ← assembleSeqF (assembleTreeF f) xs values
      some (.listP rs, rest)
    | .tup xs => do
      let (rs, rest) ← assembleSeqF (assembleTreeF f) xs values
      some (.tup rs, rest)
    | .dict es =>
      if (es.any (fun kv => kv.1 == "__layout__")) then do
        let objSkel ← lookupEntry es "obj"
        let sdObj ← lookupEntry es "stack_dim"
        let sd ← shapeFromDict sdObj
        let (content, rest) ← assembleTreeF f objSkel values
        some (mkLayout content sd, rest)
      else do
        let (rs, rest) ← assembleEntriesF (assembleTreeF f) es values
        some (.dict rs, rest)
    | .nativeT a ns s => some (.nativeT a ns s, values)
    | .stackT cs sd vr sh => some (.stackT cs sd vr sh, values)
    | .layoutT o sd sh => some (.layoutT o sd sh, values)
    | .foreignT k => some (.foreignT k, values)
    | .record nm es => do
      -- Modelled from the spec: record/dataclass skeletons are rebuilt by
      -- assembling each declared variable attribute in order, preserving
      -- the record's other state (spec section 4.4).
      let (rs, rest) ← assembleEntriesF (assembleTreeF f) es values
      some (.record nm rs, rest)
    | o => some (o, values)

mutual

/-- `disassemble_tree(obj, cache)`: splits a nested structure into a
skeleton and the ordered list of contained tensors. The default
`attr_type=variable_attributes` is the only one the verified paths use.
The `OBJECTS` backend (object arrays) is not modelled: a non-array leaf
is opaque. -/
def disassembleTreeF : Nat → Bool → PyObj → Option (PyObj × List PyObj)
  | 0, _, _ => none
  | f+1, cache, obj =>
    match obj with
    | .noneP => some (.strP "__missing__", [])
    | .layoutT o sd _ => do
      let (keys, values) ← disassembleTreeF f cache o
      some (.dict [("__layout__", .native ⟨false, [], [.intV 1]⟩),
                   ("stack_dim", .shapeDict sd), ("obj", keys)], values)
    | .nativeT _ _ _ | .stackT _ _ _ _ | .foreignT _ =>
      if cache then do
        let c ← cachedT f obj
        some (.noneP, [c])
      else some (.noneP, [obj])
    | .tup xs => do
      let rs ← xs.mapM (disassembleTreeF f cache)
      some (.tup (rs.map (fun r => r.1)), (rs.map (fun r => r.2)).flatten)
    | .listP xs => do
      let rs ← xs.mapM (disassembleTreeF f cache)
      some (.listP (rs.map (fun r => r.1)), (rs.map (fun r => r.2)).flatten)
    | .dict es => do
      let rs ← es.mapM (fun kv => do
        let r ← disassembleTreeF f cache kv.2
        some ((kv.1, r.1), r.2))
      some (.dict (rs.map (fun r => r.1)), (rs.map (fun r => r.2)).flatten)
    | .record nm es => do
      -- Modelled from the spec: record-like structured objects are
      -- disassembled over their declared variable attributes, preserving
      -- the remaining structural state (spec section 4.4).
      let rs ← es.mapM (fun kv => do
        let r ← disassembleTreeF f cache kv.2
        some ((kv.1, r.1), r.2))
      some (.record nm (rs.map (fun r => r.1)), (rs.map (fun r => r.2)).flatten)
    | .native a =>
      some (.strP "__native__", [.nativeT a (anonDims a.dims) (anonDims a.dims)])
    | .strP s => some (.strP s, [])
    | .obj i => some (.obj i, [])
    | .shapeDict sh => some (.shapeDict sh, [])

/-- `cached(t)`: idempotent materialization. A `NativeTensor` is expanded
to its declared shape; a `TensorStack` first caches its component tuple
(the `PhiTreeNode` branch of `cached`, i.e. a tree round-trip with
`cache=True`), then either re-stacks (when broadcast is required) or
concatenates the component natives into a single `NativeTensor`; a
`Layout` is returned unchanged; containers take the tree round-trip. The
sparse variants are outside the shown sources, so `foreignT` falls
through to the final assert. -/
def cachedT : Nat → PyObj → Option PyObj
  | 0, _ => none
  | f+1, t =>
    match t with
    | .nativeT arr ns s => nativeCached arr ns s
    | .stackT cs sd _ sh => do
      let innersObj ← cachedT f (.tup cs)
      let inners ← match innersObj with
        | .tup l => some l
        | _ => none
      if requiresBroadcast t then mkStack inners sd
      else do
        let natives ← inners.mapM (fun c => tensorNativeF f c (namesOf (shapeOf c)) true)
        some (.nativeT (stackA natives (indexOfName sh sd.name)) sh sh)
    | .layoutT o sd sh => some (.layoutT o sd sh)
    | .tup _ | .listP _ | .dict _ | .record _ _ => do
      let (tree, tensors) ← disassembleTreeF f true t
      let (r, _) ← assembleTreeF f tree tensors
      some r
    | _ => none

end

-- ------------------------------------------------------------------
-- Equality-mode stack (the global `_EQUALITY_REDUCE`).
-- ------------------------------------------------------------------

/-- One frame of the equality-mode stack: the default elementwise mode,
identity-reference mode (`equality_by_ref`), or approximate
shape-and-value mode with its tolerances (`equality_by_shape_and_value`). -/
inductive Frame where
  | elementwise
  | ref
  | shapeValue (relTol absTol : PyVal) (equalNan : Bool)
deriving DecidableEq, Repr, Inhabited

/-- The currently active mode (`_EQUALITY_REDUCE[-1]`); the head of the
list is the top of the stack, and the process-global initial stack is
`[elementwise]`, so an empty list also reads as elementwise. -/
def currentFrame (modes : List Frame) : Frame := modes.headD .elementwise

/-- Entering a mode context manager pushes one frame. -/
def enterFrame (fr : Frame) (s : List Frame) : List Frame := fr :: s

/-- Leaving pops exactly one frame and asserts that the popped frame is
the one that was pushed; popping from an empty stack or popping a
different frame is an assertion failure (`none`). -/
def leaveFrame (fr : Frame) (s : List Frame) : Option (List Frame) :=
  match s with
  | [] => none
  | g :: rest => if g = fr then some rest else none

/-- The `@contextmanager` pattern of `equality_by_ref` /
`equality_by_shape_and_value`: push a frame, run the body (which returns
its final stack and whether it raised), and in the `finally` clause pop
and assert. A failed assert surfaces as `none` with `raised = true`; a
body exception is re-raised after the pop. -/
def scopedEqualityMode (fr : Frame) (body : List Frame → List Frame × Bool)
    (s : List Frame) : Option (List Frame) × Bool :=
  let r := body (enterFrame fr s)
  match leaveFrame fr r.1 with
  | some rest => (some rest, r.2)
  | none => (none, true)

/-- `equality_by_ref()` as a scoped region transformer. -/
def equalityByRef (body : List Frame → List Frame × Bool) (s : List Frame) :
    Option (List Frame) × Bool :=
  scopedEqualityMode .ref body s

/-- `equality_by_shape_and_value(rel_tolerance, abs_tolerance, equal_nan)`
as a scoped region transformer. -/
def equalityByShapeAndValue (relTol absTol : PyVal) (equalNan : Bool)
    (body : List Frame → List Frame × Bool) (s : List Frame) :
    Option (List Frame) × Bool :=
  scopedEqualityMode (.shapeValue relTol absTol equalNan) body s

-- ------------------------------------------------------------------
-- expand (`expand_tensor`, used by `Tensor.__eq__` for `self is other`).
-- ------------------------------------------------------------------

/-- `expand_tensor(value, dims)` (the core of `expand`): a `NativeTensor`
gains the new dimensions virtually (merged into its expanded shape); for
non-uniform target shapes a `TensorStack` is built; a `TensorStack`
recurses into its components; rank > 1 non-uniformity and other
representations raise `NotImplementedError`. -/
def expandTensorF : Nat → PyObj → PhShape → Option PyObj
  | 0, _, _ => none
  | f+1, value, dims =>
    match dims with
    | [] => some value
    | _ =>
      match value with
      | .nativeT arr ns s =>
        if isUniformS dims then do
          let es ← mergeShapes2 dims s
          some (.nativeT arr ns es)
        else
          match shapeOfShapeS dims with
          | [sd] =>
            let size := match sd.size with | .uni n => n | .varying _ _ _ => 0
            let unstackedDims := (List.range size).map (fun i => afterGatherS dims sd.name i)
            if containsName s sd.name then do
              let unstacked ← nativeUnstack arr ns s sd.name
              let components ← (unstackedDims.zip unstacked).mapM (fun p =>
                match p.2 with
                | .nativeT ia ins _ => do
                  let es ← mergeShapes2 p.1 ins
                  some (PyObj.nativeT ia ins es)
                | _ => none)
              mkStack components sd
            else do
              let components ← unstackedDims.mapM (fun ds => do
                let es ← mergeShapes2 ds ns
                some (PyObj.nativeT arr ns es))
              mkStack components sd
          | _ => none
      | .stackT cs sd _ _ => do
        let expanded ← cs.enum.mapM (fun (i, v) =>
          expandTensorF f v (afterGatherS dims sd.name i))
        mkStack expanded sd
      | _ => none

/-- `expand(True, shape)`: modelled from the spec as wrapping the Python
`True` in a dimensionless tensor and declaring `shape` as constant
dimensions via `expand_tensor` (the `expand` wrapper itself lives in
`_magic_ops`, outside the shown sources). -/
def expandBoolTrueF (f : Nat) (sh : PhShape) : Option PyObj :=
  expandTensorF f (wrapBool true) sh

-- ------------------------------------------------------------------
-- Binary operation dispatch.
-- ------------------------------------------------------------------

/-- Result of a Python `_op2` method: a value, the `NotImplemented`
sentinel, or a raised exception. -/
inductive Op2Res where
  | ok (r : PyObj)
  | nh
  | err (msg : String)
deriving Repr, Inhabited

/-- The two faces of a backend `native_function` passed through `_op2`:
its behaviour on backend arrays and (via duck typing inside `Layout`)
on arbitrary leaf objects. -/
structure Kernel where
  onNative : NArr → NArr → NArr
  onLeaf : PyObj → PyObj → PyObj

/-- Argument-reversed kernel (`lambda a, b: native_function(b, a)`). -/
def Kernel.flipK (k : Kernel) : Kernel :=
  ⟨fun a b => k.onNative b a, fun a b => k.onLeaf b a⟩

/-- A raw Python bool (the result of `==` on two leaf objects). -/
def rawBool (b : Bool) : PyObj := .native ⟨false, [], [.boolV b]⟩

/-- Python `==` on two leaf objects: elementwise on arrays/scalars
(`nan` unequal to itself), structural on strings and opaque objects. -/
def pyLeafEq (a b : PyObj) : PyObj :=
  match a, b with
  | .native x, .native y => .native (equalA x y)
  | .strP s, .strP t => rawBool (s == t)
  | .obj i, .obj j => rawBool (i == j)
  | _, _ => rawBool false

/-- Python `!=` on two leaf objects. -/
def pyLeafNe (a b : PyObj) : PyObj :=
  match a, b with
  | .native x, .native y => .native (notEqualA x y)
  | .strP s, .strP t => rawBool (!(s == t))
  | .obj i, .obj j => rawBool (!(i == j))
  | _, _ => rawBool true

/-- The `operator` / `native_function` pair handed through `_op2`,
defunctionalized: a custom kernel whose Tensor-level operator is the
Python binary-operator protocol, or the equality/inequality operators
(whose Tensor-level recursion is `==` / `!=` and therefore consults the
equality-mode stack). -/
inductive OpKind where
  | generic (k : Kernel)
  | eqOp
  | neOp

/-- The backend kernel belonging to an operator kind. -/
def kernelOf : OpKind → Kernel
  | .generic k => k
  | .eqOp => ⟨equalA, pyLeafEq⟩
  | .neOp => ⟨notEqualA, pyLeafNe⟩

/-- The operator kind for the mirrored argument order. -/
def OpKind.flipO : OpKind → OpKind
  | .generic k => .generic k.flipK
  | .eqOp => .eqOp
  | .neOp => .neOp

/-- The signature of the external `close()` collaborator used by the
shape-and-value equality mode (`_ops.py`, outside the shown sources):
`close(self, other, rel_tolerance, abs_tolerance, equal_nan)`. -/
abbrev CloseFn := PyObj → PyObj → PyVal → PyVal → Bool → Bool

/-- Result of `Tensor._tensor(other)`: a converted tensor together with
the `was_converted` flag, the `NoBackendFound` exception, or another
exception. -/
inductive ConvRes where
  | conv (t : PyObj) (wasConverted : Bool)
  | noBackend
  | fail (msg : String)

/-- Replace the sizes of a shape by the given integer sizes. -/
def withSizesL (s : PhShape) (sizes : List Nat) : PhShape :=
  s.zipWith (fun d n => ⟨d.name, d.type, .uni n⟩) sizes

/-- `Tensor._tensor(other)` with `compatible_tensor(other,
compat_shape=self.shape, convert=False)` for non-Tensor operands:
scalars become dimensionless tensors; an array whose rank matches the
channel rank (or the full rank) of the compatible shape adopts those
dimensions; `None` and objects without a backend raise `NoBackendFound`.
(The list-of-tensors stacking branch and the single-'vector' special
case are outside the operand universe the verified claims quantify
over and are modelled as failures.) -/
def tensorConv (compat : PhShape) (other : PyObj) : ConvRes :=
  match other with
  | .nativeT a n s => .conv (.nativeT a n s) false
  | .stackT cs sd vr sh => .conv (.stackT cs sd vr sh) false
  | .layoutT o sd sh => .conv (.layoutT o sd sh) false
  | .foreignT k => .conv (.foreignT k) false
  | .native a =>
    if a.dims.length == 0 then .conv (wrapScalar a) true
    else
      let chans := compat.filter (fun d => d.type == .channel)
      if a.dims.length == chans.length then
        .conv (.nativeT a (withSizesL chans a.dims) (withSizesL chans a.dims)) true
      else if a.dims.length == compat.length then
        .conv (.nativeT a (withSizesL compat a.dims) (withSizesL compat a.dims)) true
      else .fail "ValueError: cannot combine tensor shapes"
  | .noneP | .strP _ | .obj _ | .shapeDict _ => .noBackend
  | _ => .fail "unmodelled operand"

/-- `NativeTensor._op2(other, operator, native_function, …,
switch_args)`: convert the operand (a `NoBackendFound` becomes the
not-handled sentinel); an unconverted non-NativeTensor operand is also
not handled (double dispatch); otherwise merge the two native shapes,
fetch both arrays in that order (`force_expand=False` for tensors of
positive rank, the plain `native()` for scalars), apply the backend
kernel and wrap the result with the merge of the two expanded shapes. -/
def nativeOp2F (f : Nat) (kind : OpKind) (arr : NArr) (ns s : PhShape)
    (other : PyObj) (switchArgs : Bool) : Op2Res :=
  match tensorConv s other with
  | .noBackend => .nh
  | .fail m => .err m
  | .conv ot wasConverted =>
    if !(isNativeT ot) && !wasConverted then .nh
    else
      let otM : Option PyObj :=
        if isNativeT ot then some ot
        else do
          let a ← tensorNativeF f ot (namesOf (shapeOf ot)) true
          some (.nativeT a (shapeOf ot) (shapeOf ot))
      match otM with
      | some (.nativeT arr2 ns2 s2) =>
        match mergeShapes2 ns ns2 with
        | none => .err "IncompatibleShapes"
        | some bs =>
          let n1? := if s.length == 0 then transposedNativeN arr ns s [] true
                     else transposedNativeN arr ns s (namesOf bs) false
          let n2? := if s2.length == 0 then transposedNativeN arr2 ns2 s2 [] true
                     else transposedNativeN arr2 ns2 s2 (namesOf bs) false
          match n1?, n2? with
          | some n1, some n2 =>
            match mergeShapes2 s s2 with
            | none => .err "IncompatibleShapes"
            | some es =>
              let k := kernelOf kind
              .ok (.nativeT (if switchArgs then k.onNative n2 n1 else k.onNative n1 n2) bs es)
          | _, _ => .err "ValueError"
      | _ => .err "ValueError"

/-- `broadcastable_native_tensors(*tensors)`: merge all shapes and fetch
every operand's array in the merged order (the sparse densification step
has no sparse inputs in the modelled core). -/
def broadcastableNativeTensorsF (f : Nat) (ts : List PyObj) :
    Option (PhShape × List NArr) := do
  let bs ← mergeShapesL (ts.map shapeOf)
  let natives ← ts.mapM (fun t =>
    if (shapeOf t).length == 0 then tensorNativeF f t [] true
    else tensorNativeF f t (namesOf bs) true)
  some (bs, natives)

/-- `shape(other)` for operand-compatibility checks (collaborator,
modelled from the spec): a Tensor reports its shape, a raw array gets
anonymous dimensions, scalars and other objects are dimensionless. -/
def operandShape (o : PyObj) : PhShape :=
  if isTensor o then shapeOf o
  else match o with
    | .native a => anonDims a.dims
    | _ => []

/-- An `Option` result where `none` is a raised exception. -/
def resOfOpt (msg : String) : Option PyObj → Op2Res
  | some r => .ok r
  | none => .err msg

/-- An `Except` result as an `Op2Res`. -/
def resOfExcept : Except String PyObj → Op2Res
  | .ok r => .ok r
  | .error m => .err m

mutual

/-- `x._op2(other, operator, native_function, …)`: virtual dispatch on
the representation of `x`. `foreignT` is a sibling representation
(modelled from the spec, sections 1 and 4.6) that reports "not handled". -/
def op2F : Nat → CloseFn → OpKind → List Frame → PyObj → PyObj → Op2Res
  | 0, _, _, _, _, _ => .err "fuel"
  | f+1, cf, kind, modes, x, other =>
    match x with
    | .nativeT arr ns s => nativeOp2F f kind arr ns s other false
    | .stackT cs sd vr sh => stackOp2F f cf kind modes cs sd vr sh other
    | .layoutT o sd sh => layoutOp2F f cf kind modes o sd sh other
    | .foreignT _ => .nh
    | _ => .err "AttributeError"

/-- `TensorStack._op2`: convert the operand (conversion errors are not
caught here); when broadcast is required, pair the components with the
operand's slices along the stack dimension — `zip` silently truncating
to the shorter side — or broadcast the same operand against every
component; otherwise collapse via `broadcastable_native_tensors`; a
broadcast-requiring stack operand is paired analogously; anything else
is not handled. -/
def stackOp2F : Nat → CloseFn → OpKind → List Frame → List PyObj → Dim → Bool →
    PhShape → PyObj → Op2Res
  | 0, _, _, _, _, _, _, _, _ => .err "fuel"
  | f+1, cf, kind, modes, cs, sd, vr, sh, other =>
    match tensorConv sh other with
    | .noBackend => .err "NoBackendFound"
    | .fail m => .err m
    | .conv ot _ =>
      let self := PyObj.stackT cs sd vr sh
      if requiresBroadcast self then
        if containsName (shapeOf ot) sd.name then
          match unstackF f ot sd.name with
          | none => .err "unstack failed"
          | some slices =>
            match (cs.zip slices).mapM (fun p => opApplyF f cf kind modes p.1 p.2) with
            | .error m => .err m
            | .ok tensors => resOfOpt "AssertionError" (mkStack tensors sd)
        else
          match cs.mapM (fun c => opApplyF f cf kind modes c ot) with
          | .error m => .err m
          | .ok tensors => resOfOpt "AssertionError" (mkStack tensors sd)
      else if isNativeT ot || (isStackT ot && !(requiresBroadcast ot)) then
        match broadcastableNativeTensorsF f [self, ot] with
        | some (newShape, [n1, n2]) =>
          .ok (.nativeT ((kernelOf kind).onNative n1 n2) newShape newShape)
        | _ => .err "broadcast failed"
      else if isStackT ot && requiresBroadcast ot then
        match ot with
        | .stackT ocs osd _ _ =>
          if containsName sh osd.name then
            match unstackF f self osd.name with
            | none => .err "unstack failed"
            | some selfSlices =>
              match (selfSlices.zip ocs).mapM (fun p => opApplyF f cf kind modes p.1 p.2) with
              | .error m => .err m
              | .ok tensors => resOfOpt "AssertionError" (mkStack tensors sd)
          else
            match ocs.mapM (fun c => opApplyF f cf kind modes self c) with
            | .error m => .err m
            | .ok tensors => resOfOpt "AssertionError" (mkStack tensors sd)
        | _ => .err "unreachable"
      else .nh

/-- `Layout._op2`: recurse through the declared nesting, then wrap the
result in a `Layout` whose stack dimensions are extended by the other
layout's (`concat_shapes(self._stack_dim, other._stack_dim.without(...))`). -/
def layoutOp2F : Nat → CloseFn → OpKind → List Frame → PyObj → PhShape → PhShape →
    PyObj → Op2Res
  | 0, _, _, _, _, _, _, _ => .err "fuel"
  | f+1, cf, kind, modes, o, sd, _sh, other =>
    match recOp2F f cf kind modes o sd other with
    | .error m => .err m
    | .ok obj' =>
      let newStack := match other with
        | .layoutT _ osd _ => sd ++ osd.filter (fun d => !(containsName sd d.name))
        | _ => sd
      .ok (mkLayout obj' newStack)

/-- `Layout._recursive_op2(obj, shape, other, operator, native_function)`:
one level at a time; if the other operand has the current dimension it is
sliced per index (the sizes must match — `assert`), otherwise it is
broadcast into every branch; at the leaf, a dimensionless Layout operand
contributes its raw object to `native_function`, a Tensor operand goes
through `operator`, anything else through `native_function`. An obj that
is neither sized nor a container falls off the end of the Python
function, which returns `None`. -/
def recOp2F : Nat → CloseFn → OpKind → List Frame → PyObj → PhShape → PyObj →
    Except String PyObj
  | 0, _, _, _, _, _, _ => .error "fuel"
  | f+1, cf, kind, modes, obj, sh, other =>
    match sh with
    | d :: rest =>
      match lenOf obj with
      | none => .error "TypeError: len()"
      | some n =>
        let others? : Except String (List PyObj) :=
          if isTensor other && containsName (shapeOf other) d.name then
            if !(getSizeOf (shapeOf other) d.name == n) then
              .error ("Shape mismatch during op: dim " ++ d.name)
            else (List.range n).mapM (fun i =>
              match getItemF f other d.name i with
              | some r => .ok r
              | none => .error "getitem failed")
          else .ok (List.replicate n other)
        match others? with
        | .error m => .error m
        | .ok others =>
          match obj with
          | .tup xs => do
            let rs ← (xs.zip others).mapM (fun p => recOp2F f cf kind modes p.1 rest p.2)
            .ok (.tup rs)
          | .listP xs => do
            let rs ← (xs.zip others).mapM (fun p => recOp2F f cf kind modes p.1 rest p.2)
            .ok (.listP rs)
          | .dict es => do
            let rs ← (es.zip others).mapM (fun p => do
              let r ← recOp2F f cf kind modes p.1.2 rest p.2
              .ok (p.1.1, r))
            .ok (.dict rs)
          | _ => .ok .noneP
    | [] =>
      match other with
      | .layoutT oo _ osh =>
        if osh.isEmpty then .ok ((kernelOf kind).onLeaf obj oo)
        else opApplyF f cf kind modes obj (.layoutT oo [] osh)
      | _ =>
        if isTensor other then opApplyF f cf kind modes obj other
        else .ok ((kernelOf kind).onLeaf obj other)

/-- `operator(a, b)` as handed through `_op2`: for a custom kernel this
is the Python binary-operator protocol; for `==` / `!=` it is the Python
equality protocol (which consults the equality-mode stack). -/
def opApplyF : Nat → CloseFn → OpKind → List Frame → PyObj → PyObj →
    Except String PyObj
  | 0, _, _, _, _, _ => .error "fuel"
  | f+1, cf, kind, modes, a, b =>
    match kind with
    | .generic k => pyBinProtoF f cf k modes a b
    | .eqOp => pyEqProtoF f cf modes a b
    | .neOp => pyNeProtoF f cf modes a b

/-- The Python binary-operator protocol for a custom kernel: try the left
operand's `_op2`, then the right operand's with reversed arguments, then
raise `TypeError`; two raw operands go straight to the kernel. -/
def pyBinProtoF : Nat → CloseFn → Kernel → List Frame → PyObj → PyObj →
    Except String PyObj
  | 0, _, _, _, _, _ => .error "fuel"
  | f+1, cf, k, modes, a, b =>
    if isTensor a then
      match op2F f cf (.generic k) modes a b with
      | .ok r => .ok r
      | .err m => .error m
      | .nh =>
        if isTensor b then
          match op2F f cf (.generic k.flipK) modes b a with
          | .ok r => .ok r
          | .err m => .error m
          | .nh => .error "TypeError: unsupported operand type(s)"
        else .error "TypeError: unsupported operand type(s)"
    else if isTensor b then
      match op2F f cf (.generic k.flipK) modes b a with
      | .ok r => .ok r
      | .err m => .error m
      | .nh => .error "TypeError: unsupported operand type(s)"
    else .ok (k.onLeaf a b)

/-- The Python `==` protocol: `__eq__` on the left, the reflected
`__eq__` on the right, and identity comparison (`a is b`, always false
for the distinct operands reached here) as the final fallback. -/
def pyEqProtoF : Nat → CloseFn → List Frame → PyObj → PyObj → Except String PyObj
  | 0, _, _, _, _ => .error "fuel"
  | f+1, cf, modes, a, b =>
    if isTensor a then
      match eqF f cf modes a b false with
      | .ok r => .ok r
      | .err m => .error m
      | .nh =>
        if isTensor b then
          match eqF f cf modes b a false with
          | .ok r => .ok r
          | .err m => .error m
          | .nh => .ok (rawBool false)
        else .ok (rawBool false)
    else if isTensor b then
      match eqF f cf modes b a false with
      | .ok r => .ok r
      | .err m => .error m
      | .nh => .ok (rawBool false)
    else .ok (pyLeafEq a b)

/-- The Python `!=` protocol, analogously. -/
def pyNeProtoF : Nat → CloseFn → List Frame → PyObj → PyObj → Except String PyObj
  | 0, _, _, _, _ => .error "fuel"
  | f+1, cf, modes, a, b =>
    if isTensor a then
      match neF f cf modes a b false with
      | .ok r => .ok r
      | .err m => .error m
      | .nh =>
        if isTensor b then
          match neF f cf modes b a false with
          | .ok r => .ok r
          | .err m => .error m
          | .nh => .ok (rawBool true)
        else .ok (rawBool true)
    else if isTensor b then
      match neF f cf modes b a false with
      | .ok r => .ok r
      | .err m => .error m
      | .nh => .ok (rawBool true)
    else .ok (pyLeafNe a b)

/-- `Tensor.__eq__` (with the `Layout.__eq__` override): identity first
(`expand(True, self.shape)` without any elementwise comparison), then
the active equality mode; in the default elementwise mode a `None`
operand is replaced by `nan`, incompatible shapes yield a scalar `False`
without raising, and compatible shapes run the elementwise `_op2`. A
`Layout` under the elementwise mode skips all of that and recurses
elementwise directly. `same` models the Python `self is other` test. -/
def eqF : Nat → CloseFn → List Frame → PyObj → PyObj → Bool → Op2Res
  | 0, _, _, _, _, _ => .err "fuel"
  | f+1, cf, modes, x, other, same =>
    match x with
    | .layoutT o sd sh =>
      match currentFrame modes with
      | .elementwise => layoutOp2F f cf .eqOp modes o sd sh other
      | _ => baseEqF f cf modes (.layoutT o sd sh) other same
    | _ => baseEqF f cf modes x other same

/-- The body of `Tensor.__eq__` (lines 703-718 of `_tensors.py`). -/
def baseEqF : Nat → CloseFn → List Frame → PyObj → PyObj → Bool → Op2Res
  | 0, _, _, _, _, _ => .err "fuel"
  | f+1, cf, modes, x, other, same =>
    if same then resOfOpt "NotImplementedError" (expandBoolTrueF f (shapeOf x))
    else
      match currentFrame modes with
      | .ref => .ok (wrapBool same)
      | .shapeValue rel abs nan =>
        if isTensor other then
          if !(dimSetEq (shapeOf x) (shapeOf other)) then .ok (wrapBool false)
          else .ok (wrapBool (cf x other rel abs nan))
        else .ok (wrapBool false)
      | .elementwise =>
        let other' := match other with
          | .noneP => PyObj.native ⟨false, [], [.nanV]⟩
          | o => o
        if isCompatibleS (shapeOf x) (operandShape other') then
          op2F f cf .eqOp modes x other'
        else .ok (wrapBool false)

/-- `Tensor.__ne__` (with the `Layout.__ne__` override); note there is no
identity shortcut here. -/
def neF : Nat → CloseFn → List Frame → PyObj → PyObj → Bool → Op2Res
  | 0, _, _, _, _, _ => .err "fuel"
  | f+1, cf, modes, x, other, same =>
    match x with
    | .layoutT o sd sh =>
      match currentFrame modes with
      | .elementwise => layoutOp2F f cf .neOp modes o sd sh other
      | _ => baseNeF f cf modes (.layoutT o sd sh) other same
    | _ => baseNeF f cf modes x other same

/-- The body of `Tensor.__ne__` (lines 720-733 of `_tensors.py`). -/
def baseNeF : Nat → CloseFn → List Frame → PyObj → PyObj → Bool → Op2Res
  | 0, _, _, _, _, _ => .err "fuel"
  | f+1, cf, modes, x, other, same =>
    match currentFrame modes with
    | .ref => .ok (wrapBool (!same))
    | .shapeValue rel abs nan =>
      if isTensor other then
        if !(dimSetEq (shapeOf x) (shapeOf other)) then .ok (wrapBool true)
        else .ok (wrapBool (!(cf x other rel abs nan)))
      else .ok (wrapBool true)
    | .elementwise =>
      let other' := match other with
        | .noneP => PyObj.native ⟨false, [], [.nanV]⟩
        | o => o
      if isCompatibleS (shapeOf x) (operandShape other') then
        op2F f cf .neOp modes x other'
      else .ok (wrapBool true)

end

/-- `wrap(data)` (`tensor(data, convert=False)` without an explicit
shape): Tensors pass through; strings and `None` become Layouts; scalars
become dimensionless tensors; rank-1 arrays get the default channel
dimension `vector`; flat lists of numbers become NumPy-backed vectors and
lists of strings become Layouts. Inputs that would take the stacking
branch or fail `tensor()` are errors. -/
def wrapP : PyObj → Except String PyObj
  | .nativeT a n s => .ok (.nativeT a n s)
  | .stackT cs sd vr sh => .ok (.stackT cs sd vr sh)
  | .layoutT o sd sh => .ok (.layoutT o sd sh)
  | .foreignT k => .ok (.foreignT k)
  | .strP s => .ok (mkLayout (.strP s) [])
  | .noneP => .ok (mkLayout .noneP [])
  | .native a =>
    if a.dims.length == 0 then .ok (wrapScalar a)
    else if a.dims.length == 1 then
      .ok (.nativeT a [⟨"vector", .channel, .uni (a.dims.headD 0)⟩]
                      [⟨"vector", .channel, .uni (a.dims.headD 0)⟩])
    else .error "Specify dimension names for tensors with more than 1 dimension"
  | .listP xs =>
    if xs.all (fun x => match x with | .native a => a.dims.isEmpty | _ => false) then
      let data := xs.map (fun x => match x with
        | .native a => a.data.headD (.intV 0)
        | _ => .intV 0)
      .ok (.nativeT ⟨true, [xs.length], data⟩
            [⟨"vector", .channel, .uni xs.length⟩] [⟨"vector", .channel, .uni xs.length⟩])
    else if xs.all (fun x => match x with | .strP _ => true | _ => false) then
      .ok (mkLayout (.listP xs) [⟨"vector", .channel, .uni xs.length⟩])
    else .error "unmodelled tensor() input"
  | .tup xs =>
    if xs.all (fun x => match x with | .native a => a.dims.isEmpty | _ => false) then
      let data := xs.map (fun x => match x with
        | .native a => a.data.headD (.intV 0)
        | _ => .intV 0)
      .ok (.nativeT ⟨true, [xs.length], data⟩
            [⟨"vector", .channel, .uni xs.length⟩] [⟨"vector", .channel, .uni xs.length⟩])
    else .error "unmodelled tensor() input"
  | _ => .error "ValueError: not supported"

/-- The dispatch error message of `custom_op2`. -/
def unsupportedMsg (a b : String) : String :=
  "Operation not supported between " ++ a ++ " and " ++ b

/-- `custom_op2(x, y, …)`: wrap both operands, try `_op2` on the left
operand, on `NotImplemented` retry the mirrored operator on the right
operand, and if that is also not handled raise `NotImplementedError`
naming both representation kinds. -/
def customOp2F (f : Nat) (cf : CloseFn) (k : Kernel) (modes : List Frame)
    (x y : PyObj) : Except String PyObj :=
  match wrapP x with
  | .error m => .error m
  | .ok x' =>
    match wrapP y with
    | .error m => .error m
    | .ok y' =>
      match op2F f cf (.generic k) modes x' y' with
      | .ok r => .ok r
      | .err m => .error m
      | .nh =>
        match op2F f cf (.generic k.flipK) modes y' x' with
        | .ok r => .ok r
        | .err m => .error m
        | .nh => .error (unsupportedMsg (typeNameOf x') (typeNameOf y'))

-- ------------------------------------------------------------------
-- Theorems.
-- ------------------------------------------------------------------

/-- **C6** — Every attempt to construct a TensorStack whose stack_dim name
already occurs in some component's shape fails (the `__init__` assert),
and every successfully constructed TensorStack satisfies the invariant
that `stack_dim.name` is absent from every component's shape and
`stack_dim.size` equals the number of components. -/
theorem c6_stack_invariant (cs : List PyObj) (sd : Dim) :
    ((∃ c ∈ cs, containsName (shapeOf c) sd.name = true) → mkStack cs sd = none) ∧
    (∀ t, mkStack cs sd = some t →
      (∀ c ∈ cs, containsName (shapeOf c) sd.name = false) ∧
      ∃ vr sh, t = .stackT cs ⟨sd.name, sd.type, .uni cs.length⟩ vr sh) := by
  constructor
  · rintro ⟨c, hc, hname⟩
    unfold mkStack
    match cs, hc with
    | c' :: rest, hc =>
      simp only
      rw [if_neg]
      intro h
      have h2 := (Bool.and_eq_true _ _ |>.mp h).2
      rw [List.all_eq_true] at h2
      have := h2 c hc
      simp [hname] at this
  · intro t ht
    unfold mkStack at ht
    match cs, ht with
    | c' :: rest, ht =>
      simp only at ht
      split_ifs at ht with h
      · have h2 := (Bool.and_eq_true _ _ |>.mp h).2
        rw [List.all_eq_true] at h2
        refine ⟨fun c hc => ?_, ?_⟩
        · have := h2 c hc
          simpa using this
        · exact ⟨_, _, (Option.some_inj.mp ht).symm⟩

/-- **C6 witness**: a concrete failed construction (stacking along a name
already present) and a concrete successful one with its invariant. -/
theorem c6_stack_invariant_witness :
    mkStack [PyObj.nativeT ⟨false, [2], [.intV 1, .intV 2]⟩
              [⟨"x", .spatial, .uni 2⟩] [⟨"x", .spatial, .uni 2⟩]]
            ⟨"x", .spatial, .uni 0⟩ = none ∧
    (∀ c ∈ [PyObj.nativeT ⟨false, [2], [.intV 1, .intV 2]⟩
              [⟨"x", .spatial, .uni 2⟩] [⟨"x", .spatial, .uni 2⟩]],
        containsName (shapeOf c) "b" = false) := by
  constructor
  · exact (c6_stack_invariant _ _).1 ⟨_, List.mem_singleton.mpr rfl, by decide⟩
  · exact ((c6_stack_invariant [PyObj.nativeT ⟨false, [2], [.intV 1, .intV 2]⟩
      [⟨"x", .spatial, .uni 2⟩] [⟨"x", .spatial, .uni 2⟩]] ⟨"b", .batch, .uni 0⟩).2
      _ rfl).1

/-- **C7 counterexample** — the claim says obtaining the native array
fails when a requested dimension name is absent from both the backing
array's shape and the declared shape; in fact such a request succeeds,
producing a singleton axis: here `"foo"` is absent from both shapes of a
one-dimensional tensor, yet `_transposed_native` returns an array (of
shape `[2, 1]`). -/
theorem c7_counterexample :
    (transposedNativeN ⟨false, [2], [.intV 1, .intV 2]⟩
      [⟨"x", .spatial, .uni 2⟩] [⟨"x", .spatial, .uni 2⟩] ["x", "foo"] true).isSome = true ∧
    containsName [⟨"x", .spatial, .uni 2⟩] "foo" = false := by
  exact ⟨rfl, rfl⟩

/-- **C7 (amended)** — `_transposed_native` fails exactly when a
dimension of the backing native array is missing from the requested
order; a requested name absent from both the array's shape and the
declared shape does not fail (it yields a singleton, possibly
unexpanded, axis). -/
theorem c7_native_order_failure (arr : NArr) (ns s : PhShape) (order : List String)
    (forceExpand : Bool) :
    (transposedNativeN arr ns s order forceExpand).isSome
      = (namesOf ns).all (fun n => order.contains n) := by
  unfold transposedNativeN
  split_ifs <;> simp_all [apply_ite Option.isSome]

/-- **C8** — The equality-mode stack obeys strict LIFO discipline for
both `equality_by_ref` and `equality_by_shape_and_value`: entering pushes
exactly one frame; leaving pops exactly one frame and asserts that the
popped frame equals the pushed one (a mismatch is an assertion failure);
hence whenever the enclosed region returns the stack with the pushed
frame still on top — in particular after every balanced enter/leave pair
— the stack is restored to its prior state, whether or not the region
raised. -/
theorem c8_equality_mode_lifo (body : List Frame → List Frame × Bool) (s : List Frame) :
    (enterFrame .ref s = .ref :: s) ∧
    (∀ rest raised, body (.ref :: s) = (.ref :: rest, raised) →
      equalityByRef body s = (some rest, raised)) ∧
    (∀ g rest raised, body (.ref :: s) = (g :: rest, raised) → g ≠ .ref →
      equalityByRef body s = (none, true)) ∧
    (∀ rel abs nan,
      (∀ rest raised, body (.shapeValue rel abs nan :: s) = (.shapeValue rel abs nan :: rest, raised) →
        equalityByShapeAndValue rel abs nan body s = (some rest, raised)) ∧
      (∀ g rest raised, body (.shapeValue rel abs nan :: s) = (g :: rest, raised) →
          g ≠ .shapeValue rel abs nan →
        equalityByShapeAndValue rel abs nan body s = (none, true))) := by
  refine ⟨rfl, ?_, ?_, ?_⟩
  · intro rest raised h
    simp [equalityByRef, scopedEqualityMode, enterFrame, h, leaveFrame]
  · intro g rest raised h hne
    simp [equalityByRef, scopedEqualityMode, enterFrame, h, leaveFrame, hne]
  · intro rel abs nan
    constructor
    · intro rest raised h
      simp [equalityByShapeAndValue, scopedEqualityMode, enterFrame, h, leaveFrame]
    · intro g rest raised h hne
      simp [equalityByShapeAndValue, scopedEqualityMode, enterFrame, h, leaveFrame, hne]

/-- **C8 witness**: a region that leaves the stack balanced but raises is
still unwound to the prior stack with the exception propagated; a region
that replaces the top frame trips the assertion. -/
theorem c8_equality_mode_lifo_witness :
    equalityByRef (fun st => (st, true)) [.elementwise] = (some [.elementwise], true) ∧
    equalityByRef (fun _ => ([.elementwise], false)) [.elementwise] = (none, true) := by
  constructor
  · exact (c8_equality_mode_lifo (fun st => (st, true)) [.elementwise]).2.1 _ _ rfl
  · exact (c8_equality_mode_lifo (fun _ => ([.elementwise], false)) [.elementwise]).2.2.1
      .elementwise _ _ rfl (by decide)

-- Concrete example objects used by witnesses and counterexamples.

/-- Elementwise integer addition, for concrete examples. -/
def vAddEx : PyVal → PyVal → PyVal
  | .intV a, .intV b => .intV (a + b)
  | _, _ => .nanV

/-- An addition kernel for concrete examples. -/
def addKernelEx : Kernel := ⟨liftKernel vAddEx, fun _ _ => .noneP⟩

/-- A trivial `close()` collaborator for concrete examples. -/
def closeEx : CloseFn := fun _ _ _ _ _ => false

/-- A 1-d tensor along `x` (size 2), for concrete examples. -/
def exT2 : PyObj :=
  .nativeT ⟨false, [2], [.intV 1, .intV 2]⟩ [⟨"x", .spatial, .uni 2⟩] [⟨"x", .spatial, .uni 2⟩]

/-- A 1-d tensor along `x` (size 3), for concrete examples. -/
def exT3 : PyObj :=
  .nativeT ⟨false, [3], [.intV 10, .intV 20, .intV 30]⟩
    [⟨"x", .spatial, .uni 3⟩] [⟨"x", .spatial, .uni 3⟩]

/-- **C3** — Binary dispatch: `custom_op2` first attempts `_op2` on the
left operand; if that reports not-handled it retries the mirrored
operator on the right operand; and if both sides report not-handled the
operation fails with an unsupported-operation error that names both
input representation kinds. -/
theorem c3_dispatch (f : Nat) (cf : CloseFn) (k : Kernel) (modes : List Frame)
    (x y x' y' : PyObj) (hx : wrapP x = .ok x') (hy : wrapP y = .ok y') :
    (∀ r, op2F f cf (.generic k) modes x' y' = .ok r →
      customOp2F f cf k modes x y = .ok r) ∧
    (op2F f cf (.generic k) modes x' y' = .nh →
      (∀ r, op2F f cf (.generic k.flipK) modes y' x' = .ok r →
        customOp2F f cf k modes x y = .ok r) ∧
      (op2F f cf (.generic k.flipK) modes y' x' = .nh →
        customOp2F f cf k modes x y
          = .error (unsupportedMsg (typeNameOf x') (typeNameOf y')))) := by
  unfold customOp2F
  rw [hx, hy]
  refine ⟨fun r hr => ?_, fun hnh => ⟨fun r hr => ?_, fun hnh2 => ?_⟩⟩
  · simp only [hr]
  · simp only [hnh, hr]
  · simp only [hnh, hnh2]

/-- **C3 witness**: the left-handled case (a NativeTensor and a scalar),
the mirrored case (a NativeTensor meets a broadcast-requiring stack: the
left `_op2` defers, the right one handles), and the failure case (two
sibling representations that both defer), whose error names both kinds. -/
theorem c3_dispatch_witness :
    customOp2F 20 closeEx addKernelEx [] exT2 (.native ⟨false, [], [.intV 5]⟩)
      = .ok (.nativeT ⟨false, [2], [.intV 6, .intV 7]⟩
          [⟨"x", .spatial, .uni 2⟩] [⟨"x", .spatial, .uni 2⟩]) ∧
    customOp2F 20 closeEx addKernelEx []
      (.foreignT "SparseCoordinateTensor") (.foreignT "CompressedSparseMatrix")
      = .error (unsupportedMsg "SparseCoordinateTensor" "CompressedSparseMatrix") := by
  constructor
  · exact (c3_dispatch 20 closeEx addKernelEx [] exT2 (.native ⟨false, [], [.intV 5]⟩)
      exT2 (wrapScalar ⟨false, [], [.intV 5]⟩) rfl rfl).1 _ rfl
  · exact ((c3_dispatch 20 closeEx addKernelEx [] (.foreignT "SparseCoordinateTensor")
      (.foreignT "CompressedSparseMatrix") (.foreignT "SparseCoordinateTensor")
      (.foreignT "CompressedSparseMatrix") rfl rfl).2 rfl).2 rfl

/-- **C4** — `NativeTensor._op2` converts the operand to a Tensor; when
both operands are NativeTensors (of positive rank), the result's backing
native shape is the shape-merge of the two native shapes, each operand's
array is obtained via `_transposed_native` in that merged order with
`force_expand=False`, the backend kernel is applied to them in that
order, and the result's expanded shape is the shape-merge of the two
expanded shapes; when the operand is a Tensor of any other variant,
`_op2` returns the not-handled sentinel so the caller re-dispatches. -/
theorem c4_native_op2 (f : Nat) (cf : CloseFn) (k : Kernel) (modes : List Frame)
    (arr1 arr2 n1 n2 : NArr) (ns1 s1 ns2 s2 bs es : PhShape)
    (h1 : 0 < s1.length) (h2 : 0 < s2.length)
    (hbs : mergeShapes2 ns1 ns2 = some bs)
    (hn1 : transposedNativeN arr1 ns1 s1 (namesOf bs) false = some n1)
    (hn2 : transposedNativeN arr2 ns2 s2 (namesOf bs) false = some n2)
    (hes : mergeShapes2 s1 s2 = some es) :
    op2F (f+1) cf (.generic k) modes (.nativeT arr1 ns1 s1) (.nativeT arr2 ns2 s2)
      = .ok (.nativeT (k.onNative n1 n2) bs es) ∧
    (∀ y, isTensor y = true → isNativeT y = false →
      op2F (f+1) cf (.generic k) modes (.nativeT arr1 ns1 s1) y = .nh) := by
  constructor
  · show nativeOp2F f (.generic k) arr1 ns1 s1 (.nativeT arr2 ns2 s2) false = _
    unfold nativeOp2F tensorConv
    have hs1 : (s1.length == 0) = false := by
      simp [Nat.pos_iff_ne_zero.mp h1]
    have hs2 : (s2.length == 0) = false := by
      simp [Nat.pos_iff_ne_zero.mp h2]
    simp [isNativeT, hs1, hs2, hbs, hn1, hn2, hes, kernelOf]
  · intro y hty hny
    show nativeOp2F f (.generic k) arr1 ns1 s1 y false = _
    unfold nativeOp2F
    match y, hty, hny with
    | .stackT cs sd vr sh, _, _ =>
      unfold tensorConv
      simp [isNativeT]
    | .layoutT o sd sh, _, _ =>
      unfold tensorConv
      simp [isNativeT]
    | .foreignT kd, _, _ =>
      unfold tensorConv
      simp [isNativeT]

/-- **C4 witness**: a concrete broadcast of `(x=2)` against `(y=2)`
tensors, checking the merged native shape, the `force_expand=False`
operand arrays, and the not-handled sentinel against a stack. -/
theorem c4_native_op2_witness :
    op2F 21 closeEx (.generic addKernelEx) []
      (.nativeT ⟨false, [2], [.intV 1, .intV 2]⟩
        [⟨"x", .spatial, .uni 2⟩] [⟨"x", .spatial, .uni 2⟩])
      (.nativeT ⟨false, [2], [.intV 10, .intV 20]⟩
        [⟨"y", .spatial, .uni 2⟩] [⟨"y", .spatial, .uni 2⟩])
      = .ok (.nativeT
          (addKernelEx.onNative ⟨false, [2, 1], [.intV 1, .intV 2]⟩
            ⟨false, [1, 2], [.intV 10, .intV 20]⟩)
          [⟨"x", .spatial, .uni 2⟩, ⟨"y", .spatial, .uni 2⟩]
          [⟨"x", .spatial, .uni 2⟩, ⟨"y", .spatial, .uni 2⟩]) ∧
    op2F 21 closeEx (.generic addKernelEx) []
      (.nativeT ⟨false, [2], [.intV 1, .intV 2]⟩
        [⟨"x", .spatial, .uni 2⟩] [⟨"x", .spatial, .uni 2⟩])
      (.layoutT (.strP "a") [] []) = .nh := by
  constructor
  · exact (c4_native_op2 20 closeEx addKernelEx []
      ⟨false, [2], [.intV 1, .intV 2]⟩ ⟨false, [2], [.intV 10, .intV 20]⟩
      ⟨false, [2, 1], [.intV 1, .intV 2]⟩ ⟨false, [1, 2], [.intV 10, .intV 20]⟩
      [⟨"x", .spatial, .uni 2⟩] [⟨"x", .spatial, .uni 2⟩]
      [⟨"y", .spatial, .uni 2⟩] [⟨"y", .spatial, .uni 2⟩]
      [⟨"x", .spatial, .uni 2⟩, ⟨"y", .spatial, .uni 2⟩]
      [⟨"x", .spatial, .uni 2⟩, ⟨"y", .spatial, .uni 2⟩]
      (by decide) (by decide) rfl rfl rfl rfl).1
  · exact (c4_native_op2 20 closeEx addKernelEx []
      ⟨false, [2], [.intV 1, .intV 2]⟩ ⟨false, [2], [.intV 10, .intV 20]⟩
      ⟨false, [2, 1], [.intV 1, .intV 2]⟩ ⟨false, [1, 2], [.intV 10, .intV 20]⟩
      [⟨"x", .spatial, .uni 2⟩] [⟨"x", .spatial, .uni 2⟩]
      [⟨"y", .spatial, .uni 2⟩] [⟨"y", .spatial, .uni 2⟩]
      [⟨"x", .spatial, .uni 2⟩, ⟨"y", .spatial, .uni 2⟩]
      [⟨"x", .spatial, .uni 2⟩, ⟨"y", .spatial, .uni 2⟩]
      (by decide) (by decide) rfl rfl rfl rfl).2 _ rfl rfl

/-- A stack of `exT2` and `exT3` along `b` — the components have varying
shapes, so broadcast is required. -/
def exStackVar : PyObj := (mkStack [exT2, exT3] ⟨"b", .batch, .uni 0⟩).getD .noneP

/-- A tensor along `b` of size 3 — one more slice than `exStackVar` has
components. -/
def exOB3 : PyObj :=
  .nativeT ⟨false, [3], [.intV 5, .intV 6, .intV 7]⟩
    [⟨"b", .batch, .uni 3⟩] [⟨"b", .batch, .uni 3⟩]

/-- `exT2 + 5` — the first component of the truncated result. -/
def exC5Comp1 : PyObj :=
  .nativeT ⟨false, [2], [.intV 6, .intV 7]⟩ [⟨"x", .spatial, .uni 2⟩] [⟨"x", .spatial, .uni 2⟩]

/-- `exT3 + 6` — the second component of the truncated result. -/
def exC5Comp2 : PyObj :=
  .nativeT ⟨false, [3], [.intV 16, .intV 26, .intV 36]⟩
    [⟨"x", .spatial, .uni 3⟩] [⟨"x", .spatial, .uni 3⟩]

/-- **C5 counterexample** — the claim says that when the other operand
carries the stack dimension, the component/slice counts must match or
the operation fails with a shape-mismatch error. In fact a
broadcast-requiring stack of 2 components combined with an operand of
size 3 along the stack dimension succeeds: `zip` silently truncates to 2
pairs and the third slice (`7`) is dropped. -/
theorem c5_counterexample :
    requiresBroadcast exStackVar = true ∧
    getSizeOf (shapeOf exStackVar) "b" = 2 ∧
    getSizeOf (shapeOf exOB3) "b" = 3 ∧
    op2F 20 closeEx (.generic addKernelEx) [] exStackVar exOB3
      = .ok (.stackT [exC5Comp1, exC5Comp2] ⟨"b", .batch, .uni 2⟩ true
          [⟨"b", .batch, .uni 2⟩,
           ⟨"x", .spatial, .varying "b" .batch [2, 3]⟩]) := by
  exact ⟨rfl, rfl, rfl, rfl⟩

/-- Mapping over a list in the `Except` monad preserves the length. -/
theorem exceptMapM_len {α β : Type} (g : α → Except String β) :
    ∀ (l : List α) (rs : List β), l.mapM g = .ok rs → rs.length = l.length := by
  intro l
  induction l with
  | nil =>
    intro rs h
    simp only [List.mapM_nil] at h
    cases h
    rfl
  | cons a l ih =>
    intro rs h
    rw [List.mapM_cons] at h
    cases hg : g a with
    | error m => rw [hg] at h; cases h
    | ok b =>
      rw [hg] at h
      cases hl : l.mapM g with
      | error m =>
        rw [hl] at h
        cases h
      | ok bs =>
        rw [hl] at h
        cases h
        simp [ih bs hl]

/-- **C5 (amended)** — For a broadcast-requiring TensorStack: when the
other operand's shape contains the stack dimension's name, components
are paired positionally with the operand's slices along that dimension,
but the counts need *not* match — `zip` truncates to the shorter side
and no shape-mismatch error is raised, the result having
`min(len(components), len(slices))` components; when the operand does
not contain the stack dimension, the same operand is broadcast against
every component. -/
theorem c5_stack_broadcast (f : Nat) (cf : CloseFn) (k : Kernel) (modes : List Frame)
    (cs : List PyObj) (sd : Dim) (vr : Bool) (sh : PhShape) (other ot : PyObj) (b : Bool)
    (hrb : requiresBroadcast (.stackT cs sd vr sh) = true)
    (hconv : tensorConv sh other = .conv ot b) :
    (∀ slices, containsName (shapeOf ot) sd.name = true →
      unstackF f ot sd.name = some slices →
      ∀ results,
        (cs.zip slices).mapM (fun p => opApplyF f cf (.generic k) modes p.1 p.2) = .ok results →
        op2F (f+2) cf (.generic k) modes (.stackT cs sd vr sh) other
          = resOfOpt "AssertionError" (mkStack results sd) ∧
        results.length = min cs.length slices.length) ∧
    (containsName (shapeOf ot) sd.name = false →
      ∀ results, cs.mapM (fun c => opApplyF f cf (.generic k) modes c ot) = .ok results →
        op2F (f+2) cf (.generic k) modes (.stackT cs sd vr sh) other
          = resOfOpt "AssertionError" (mkStack results sd)) := by
  constructor
  · intro slices hcont hunst results hmap
    constructor
    · show stackOp2F (f+1) cf (.generic k) modes cs sd vr sh other = _
      unfold stackOp2F
      rw [hconv]
      simp only [hrb, if_true, hcont, hunst, hmap]
    · rw [exceptMapM_len _ _ _ hmap, List.length_zip]
  · intro hcont results hmap
    show stackOp2F (f+1) cf (.generic k) modes cs sd vr sh other = _
    unfold stackOp2F
    rw [hconv]
    simp only [hrb, if_true, hcont, hmap, Bool.false_eq_true, if_false]

/-- `exT3 + 5` — second component when the scalar `5` is broadcast. -/
def exC5Comp3 : PyObj :=
  .nativeT ⟨false, [3], [.intV 15, .intV 25, .intV 35]⟩
    [⟨"x", .spatial, .uni 3⟩] [⟨"x", .spatial, .uni 3⟩]

/-- The shape of `exStackVar`. -/
def exStackVarShape : PhShape :=
  [⟨"b", .batch, .uni 2⟩, ⟨"x", .spatial, .varying "b" .batch [2, 3]⟩]

/-- **C5 witness**: concrete instances of both branches — positional
pairing with truncation for an operand of size 3 along `b`, and
broadcasting of a scalar operand against every component. -/
theorem c5_stack_broadcast_witness :
    (op2F 22 closeEx (.generic addKernelEx) []
        (.stackT [exT2, exT3] ⟨"b", .batch, .uni 2⟩ true exStackVarShape) exOB3
      = resOfOpt "AssertionError"
          (mkStack [exC5Comp1, exC5Comp2] ⟨"b", .batch, .uni 2⟩)) ∧
    ((2 : Nat) = min 2 3) ∧
    (op2F 22 closeEx (.generic addKernelEx) []
        (.stackT [exT2, exT3] ⟨"b", .batch, .uni 2⟩ true exStackVarShape)
        (.native ⟨false, [], [.intV 5]⟩)
      = resOfOpt "AssertionError"
          (mkStack [exC5Comp1, exC5Comp3] ⟨"b", .batch, .uni 2⟩)) := by
  refine ⟨?_, ?_, ?_⟩
  · exact ((c5_stack_broadcast 20 closeEx addKernelEx [] [exT2, exT3]
      ⟨"b", .batch, .uni 2⟩ true exStackVarShape exOB3 exOB3 false rfl rfl).1
      [.nativeT ⟨false, [], [.intV 5]⟩ [] [], .nativeT ⟨false, [], [.intV 6]⟩ [] [],
       .nativeT ⟨false, [], [.intV 7]⟩ [] []]
      rfl rfl [exC5Comp1, exC5Comp2] rfl).1
  · exact ((c5_stack_broadcast 20 closeEx addKernelEx [] [exT2, exT3]
      ⟨"b", .batch, .uni 2⟩ true exStackVarShape exOB3 exOB3 false rfl rfl).1
      [.nativeT ⟨false, [], [.intV 5]⟩ [] [], .nativeT ⟨false, [], [.intV 6]⟩ [] [],
       .nativeT ⟨false, [], [.intV 7]⟩ [] []]
      rfl rfl [exC5Comp1, exC5Comp2] rfl).2
  · exact (c5_stack_broadcast 20 closeEx addKernelEx [] [exT2, exT3]
      ⟨"b", .batch, .uni 2⟩ true exStackVarShape (.native ⟨false, [], [.intV 5]⟩)
      (wrapScalar ⟨false, [], [.intV 5]⟩) true rfl rfl).2
      rfl [exC5Comp1, exC5Comp3] rfl

/-- One-step unfolding of `baseEqF` at successor fuel. -/
theorem baseEqF_succ (f : Nat) (cf : CloseFn) (modes : List Frame) (x other : PyObj)
    (same : Bool) :
    baseEqF (f+1) cf modes x other same =
      (if same then resOfOpt "NotImplementedError" (expandBoolTrueF f (shapeOf x))
       else
        match currentFrame modes with
        | .ref => .ok (wrapBool same)
        | .shapeValue rel abs nan =>
          if isTensor other then
            if !(dimSetEq (shapeOf x) (shapeOf other)) then .ok (wrapBool false)
            else .ok (wrapBool (cf x other rel abs nan))
          else .ok (wrapBool false)
        | .elementwise =>
          let other' := match other with
            | .noneP => PyObj.native ⟨false, [], [.nanV]⟩
            | o => o
          if isCompatibleS (shapeOf x) (operandShape other') then
            op2F f cf .eqOp modes x other'
          else .ok (wrapBool false)) := rfl

/-- One-step unfolding of `baseNeF` at successor fuel. -/
theorem baseNeF_succ (f : Nat) (cf : CloseFn) (modes : List Frame) (x other : PyObj)
    (same : Bool) :
    baseNeF (f+1) cf modes x other same =
      (match currentFrame modes with
        | .ref => .ok (wrapBool (!same))
        | .shapeValue rel abs nan =>
          if isTensor other then
            if !(dimSetEq (shapeOf x) (shapeOf other)) then .ok (wrapBool true)
            else .ok (wrapBool (!(cf x other rel abs nan)))
          else .ok (wrapBool true)
        | .elementwise =>
          let other' := match other with
            | .noneP => PyObj.native ⟨false, [], [.nanV]⟩
            | o => o
          if isCompatibleS (shapeOf x) (operandShape other') then
            op2F f cf .neOp modes x other'
          else .ok (wrapBool true)) := rfl

/-- The `None`-to-`nan` substitution of `Tensor.__eq__` / `__ne__`. -/
def noneAsNan : PyObj → PyObj
  | .noneP => .native ⟨false, [], [.nanV]⟩
  | o => o

/-- **C10 counterexample** — the claim says that for every Tensor under
the default elementwise mode, `t == other` does not raise when the
shapes are incompatible. For a `Layout` it does: comparing a layout of 2
elements along `k` with a tensor of size 3 along `k` hits the size
assert inside `Layout._recursive_op2` and raises instead of returning a
scalar `False`. -/
theorem c10_counterexample :
    currentFrame [] = .elementwise ∧
    eqF 20 closeEx [] (mkLayout (.listP [.strP "a", .strP "b"]) [⟨"k", .channel, .uni 2⟩])
      (.nativeT ⟨false, [3], [.intV 1, .intV 2, .intV 3]⟩
        [⟨"k", .channel, .uni 3⟩] [⟨"k", .channel, .uni 3⟩]) false
      = .err "Shape mismatch during op: dim k" := by
  exact ⟨rfl, rfl⟩

/-- **C10 (amended)** — For every NativeTensor or TensorStack `t` under
the default elementwise equality mode (Layouts excluded: they recurse
elementwise and can raise on size mismatches), `t == other` does not
raise when `other`'s shape is incompatible with `t`'s: it returns a
scalar `False` tensor, `t != other` returns a scalar `True` tensor, and
a `None` operand is compared exactly as a `nan` scalar rather than
rejected. -/
theorem c10_default_eq_behavior (f : Nat) (cf : CloseFn) (modes : List Frame)
    (x other : PyObj)
    (hmode : currentFrame modes = .elementwise)
    (hx : isNativeT x = true ∨ isStackT x = true) :
    (isCompatibleS (shapeOf x) (operandShape (noneAsNan other)) = false →
      eqF (f+2) cf modes x other false = .ok (wrapBool false) ∧
      neF (f+2) cf modes x other false = .ok (wrapBool true)) ∧
    (eqF (f+2) cf modes x .noneP false
      = eqF (f+2) cf modes x (.native ⟨false, [], [.nanV]⟩) false) := by
  have hxl : ∀ cfx, eqF (f+2) cfx modes x other false = baseEqF (f+1) cfx modes x other false ∧
      neF (f+2) cfx modes x other false = baseNeF (f+1) cfx modes x other false := by
    intro cfx
    rcases hx with h | h
    · match x, h with
      | .nativeT a n s, _ => exact ⟨rfl, rfl⟩
    · match x, h with
      | .stackT cs sd vr sh, _ => exact ⟨rfl, rfl⟩
  constructor
  · intro hcompat
    rw [(hxl cf).1, (hxl cf).2]
    constructor
    · rw [baseEqF_succ, hmode]
      simp only [noneAsNan] at hcompat
      simp only [Bool.false_eq_true, if_false]
      match other, hcompat with
      | .noneP, hcompat => simp [hcompat]
      | .native a, hcompat => simp [hcompat]
      | .nativeT a n s, hcompat => simp [hcompat]
      | .stackT cs sd vr sh, hcompat => simp [hcompat]
      | .layoutT o sd sh, hcompat => simp [hcompat]
      | .foreignT k, hcompat => simp [hcompat]
      | .tup xs, hcompat => simp [hcompat]
      | .listP xs, hcompat => simp [hcompat]
      | .dict es, hcompat => simp [hcompat]
      | .record nm es, hcompat => simp [hcompat]
      | .strP s, hcompat => simp [hcompat]
      | .obj i, hcompat => simp [hcompat]
      | .shapeDict sh, hcompat => simp [hcompat]
    · rw [baseNeF_succ, hmode]
      simp only [noneAsNan] at hcompat
      match other, hcompat with
      | .noneP, hcompat => simp [hcompat]
      | .native a, hcompat => simp [hcompat]
      | .nativeT a n s, hcompat => simp [hcompat]
      | .stackT cs sd vr sh, hcompat => simp [hcompat]
      | .layoutT o sd sh, hcompat => simp [hcompat]
      | .foreignT k, hcompat => simp [hcompat]
      | .tup xs, hcompat => simp [hcompat]
      | .listP xs, hcompat => simp [hcompat]
      | .dict es, hcompat => simp [hcompat]
      | .record nm es, hcompat => simp [hcompat]
      | .strP s, hcompat => simp [hcompat]
      | .obj i, hcompat => simp [hcompat]
      | .shapeDict sh, hcompat => simp [hcompat]
  · rcases hx with h | h
    · match x, h with
      | .nativeT a n s, _ =>
        show baseEqF (f+1) cf modes _ .noneP false = baseEqF (f+1) cf modes _ _ false
        rw [baseEqF_succ, baseEqF_succ, hmode]
    · match x, h with
      | .stackT cs sd vr sh, _ =>
        show baseEqF (f+1) cf modes _ .noneP false = baseEqF (f+1) cf modes _ _ false
        rw [baseEqF_succ, baseEqF_succ, hmode]

/-- **C10 witness**: `(x=2) == (x=3)` under the default mode gives a
scalar `False`, `!=` gives a scalar `True`, and comparing with `None`
equals comparing with a `nan` scalar. -/
theorem c10_default_eq_behavior_witness :
    (eqF 20 closeEx [] exT2 exT3 false = .ok (wrapBool false) ∧
     neF 20 closeEx [] exT2 exT3 false = .ok (wrapBool true)) ∧
    eqF 20 closeEx [] exT2 .noneP false
      = eqF 20 closeEx [] exT2 (.native ⟨false, [], [.nanV]⟩) false := by
  exact ⟨(c10_default_eq_behavior 18 closeEx [] exT2 exT3 rfl (Or.inl rfl)).1 rfl,
         (c10_default_eq_behavior 18 closeEx [] exT2 .noneP rfl (Or.inl rfl)).2⟩

/-- Constant-`True` check for the result of an identity comparison: a
NativeTensor whose data is all `True`, or a stack of such. -/
def isConstTrueF : Nat → PyObj → Bool
  | 0, _ => false
  | f+1, t =>
    match t with
    | .nativeT arr _ _ => arr.data.all (fun v => v == .boolV true)
    | .stackT cs _ _ _ => cs.all (isConstTrueF f)
    | _ => false

/-- `Option.mapM` inversion: every element of the result is the image of
some element of the input. -/
theorem optionMapM_mem {α β : Type} (g : α → Option β) :
    ∀ (l : List α) (rs : List β), l.mapM g = some rs → ∀ r ∈ rs, ∃ a ∈ l, g a = some r := by
  intro l
  induction l with
  | nil =>
    intro rs h r hr
    simp only [List.mapM_nil] at h
    cases h
    cases hr
  | cons a l ih =>
    intro rs h r hr
    rw [List.mapM_cons] at h
    cases hg : g a with
    | none => rw [hg] at h; cases h
    | some b =>
      rw [hg] at h
      cases hl : l.mapM g with
      | none => rw [hl] at h; cases h
      | some bs =>
        rw [hl] at h
        cases h
        rcases List.mem_cons.mp hr with h1 | h1
        · exact ⟨a, List.mem_cons_self a l, by rw [hg, h1]⟩
        · obtain ⟨a', ha', hga'⟩ := ih bs hl r h1
          exact ⟨a', List.mem_cons_of_mem _ ha', hga'⟩

/-- `TensorStack.__init__` inversion: a successful construction is the
stack of exactly the given components with the sized stack dimension and
the recomputed `_varying_shapes` / `_shape` fields. -/
theorem mkStack_some (cs : List PyObj) (sd : Dim) (t : PyObj) (h : mkStack cs sd = some t) :
    t = .stackT cs ⟨sd.name, sd.type, .uni cs.length⟩
          (mergeShapesL (cs.map shapeOf)).isNone
          (shapeStack ⟨sd.name, sd.type, .uni cs.length⟩ (cs.map shapeOf)) := by
  unfold mkStack at h
  match cs, h with
  | c :: rest, h =>
    simp only at h
    split_ifs at h
    exact (Option.some_inj.mp h).symm

/-- One-step unfolding of `expand(True, ·)` on a nonempty shape. -/
theorem expandTrue_cons (f : Nat) (d : Dim) (rest : PhShape) :
    expandBoolTrueF (f+1) (d :: rest) =
      (if isUniformS (d :: rest) then
        (mergeShapes2 (d :: rest) []).bind
          (fun es => some (PyObj.nativeT ⟨false, [], [.boolV true]⟩ [] es))
      else
        match shapeOfShapeS (d :: rest) with
        | [sd] =>
          (((List.range (match sd.size with | .uni n => n | .varying _ _ _ => 0)).map
            (fun i => afterGatherS (d :: rest) sd.name i)).mapM (fun ds =>
              (mergeShapes2 ds []).bind
                (fun es => some (PyObj.nativeT ⟨false, [], [.boolV true]⟩ [] es)))).bind
            (fun components => mkStack components sd)
        | _ => none) := rfl

/-- `expand(True, sh)` produces a constant-`True` tensor (a scalar-backed
NativeTensor, or for a rank-1 non-uniform shape a stack of such). -/
theorem expandBoolTrue_const (f : Nat) (sh : PhShape) (r : PyObj)
    (h : expandBoolTrueF (f+1) sh = some r) : isConstTrueF 2 r = true := by
  match sh with
  | [] =>
    have h' : expandBoolTrueF (f+1) ([] : PhShape) = some (wrapBool true) := rfl
    rw [h'] at h
    cases h
    rfl
  | d :: rest =>
    rw [expandTrue_cons] at h
    split_ifs at h with hu
    · match hm : mergeShapes2 (d :: rest) [] with
      | none => rw [hm] at h; cases h
      | some es =>
        rw [hm] at h
        simp only [Option.bind_eq_bind, Option.some_bind] at h
        cases h
        rfl
    · match hs : shapeOfShapeS (d :: rest), h with
      | [sd], h =>
        simp only at h
        match hcs : (((List.range (match sd.size with | .uni n => n | .varying _ _ _ => 0)).map
            (fun i => afterGatherS (d :: rest) sd.name i)).mapM (fun ds =>
              (mergeShapes2 ds []).bind
                (fun es => some (PyObj.nativeT ⟨false, [], [.boolV true]⟩ [] es)))), h with
        | none, h => simp only [Option.none_bind] at h; cases h
        | some components, h =>
          simp only [Option.bind_eq_bind, Option.some_bind] at h
          have hr := mkStack_some _ _ _ h
          subst hr
          show List.all components (isConstTrueF 1) = true
          rw [List.all_eq_true]
          intro c hc
          obtain ⟨ds, _, hds⟩ := optionMapM_mem _ _ _ hcs c hc
          match hm2 : mergeShapes2 ds ([] : PhShape) with
          | none => rw [hm2] at hds; cases hds
          | some es2 =>
            rw [hm2] at hds
            simp only [Option.bind_eq_bind, Option.some_bind] at hds
            cases hds
            rfl
      | [], h => exact Option.noConfusion h
      | sd1 :: sd2 :: rest2, h => exact Option.noConfusion h

/-- `resOfOpt` inversion. -/
theorem resOfOpt_ok (m : String) (o : Option PyObj) (r : PyObj)
    (h : resOfOpt m o = .ok r) : o = some r := by
  cases o with
  | none => cases h
  | some v => cases h; rfl

/-- **C9 (amended)** — For every NativeTensor or TensorStack `t` (these
use `Tensor.__eq__`; a Layout under the default elementwise mode instead
compares elementwise, see the counterexample), evaluating `t == t` on
the identical object returns `expand(True, t.shape)` — an all-`True`
boolean tensor expanded to `t`'s shape — without performing any
elementwise comparison (the result depends only on `t.shape`, not on the
stored values, so it is `True` even at `nan` positions) and regardless
of the currently active equality mode. -/
theorem c9_identity_eq (f : Nat) (cf : CloseFn) (modes : List Frame) (t : PyObj)
    (ht : isNativeT t = true ∨ isStackT t = true) :
    eqF (f+3) cf modes t t true
      = resOfOpt "NotImplementedError" (expandBoolTrueF (f+1) (shapeOf t)) ∧
    (∀ es, isUniformS (shapeOf t) = true → mergeShapes2 (shapeOf t) [] = some es →
      eqF (f+3) cf modes t t true = .ok (.nativeT ⟨false, [], [.boolV true]⟩ [] es)) ∧
    (∀ r, eqF (f+3) cf modes t t true = .ok r → isConstTrueF 2 r = true) := by
  have key : eqF (f+3) cf modes t t true
      = resOfOpt "NotImplementedError" (expandBoolTrueF (f+1) (shapeOf t)) := by
    rcases ht with h | h
    · match t, h with
      | .nativeT a n s, _ =>
        show baseEqF (f+2) cf modes (.nativeT a n s) (.nativeT a n s) true
          = resOfOpt "NotImplementedError"
              (expandBoolTrueF (f+1) (shapeOf (PyObj.nativeT a n s)))
        rw [baseEqF_succ]
        simp
    · match t, h with
      | .stackT cs sd vr sh, _ =>
        show baseEqF (f+2) cf modes (.stackT cs sd vr sh) (.stackT cs sd vr sh) true
          = resOfOpt "NotImplementedError"
              (expandBoolTrueF (f+1) (shapeOf (PyObj.stackT cs sd vr sh)))
        rw [baseEqF_succ]
        simp
  refine ⟨key, ?_, ?_⟩
  · intro es hu hm
    rw [key]
    match hsh : shapeOf t with
    | [] =>
      rw [hsh] at hm
      have : es = [] := by
        have : mergeShapes2 ([] : PhShape) [] = some [] := rfl
        rw [this] at hm
        exact (Option.some_inj.mp hm).symm
      subst this
      rfl
    | d :: rest =>
      rw [hsh] at hm hu
      rw [expandTrue_cons, if_pos hu, hm]
      rfl
  · intro r hr
    rw [key] at hr
    have := resOfOpt_ok _ _ _ hr
    match hsh : shapeOf t with
    | [] =>
      rw [hsh] at this
      have h0 : expandBoolTrueF (f+1) ([] : PhShape) = some (wrapBool true) := rfl
      rw [h0] at this
      cases this
      rfl
    | d :: rest =>
      rw [hsh] at this
      exact expandBoolTrue_const _ _ _ this

/-- **C9 counterexample** — the claim quantifies over every Tensor, but a
`Layout` overrides `__eq__`: under the default elementwise mode `t == t`
on the identical `Layout` object performs the elementwise comparison
instead of the identity shortcut, so a layout holding a single `nan`
leaf compares to `False`, not to an all-`True` tensor. -/
theorem c9_counterexample :
    eqF 20 closeEx [.elementwise]
        (mkLayout (.native ⟨false, [], [.nanV]⟩) [])
        (mkLayout (.native ⟨false, [], [.nanV]⟩) []) true
      = .ok (.layoutT (rawBool false) [] []) ∧
    isConstTrueF 2 (.layoutT (rawBool false) [] []) = false := by
  exact ⟨rfl, rfl⟩

/-- **C9 witness**: identity comparison of a NativeTensor with a virtual
dimension, under the `ref` mode, yields the virtually-expanded all-`True`
tensor. -/
theorem c9_identity_eq_witness :
    eqF 20 closeEx [.ref] exT2 exT2 true
      = .ok (.nativeT ⟨false, [], [.boolV true]⟩ [] [⟨"x", .spatial, .uni 2⟩]) ∧
    isConstTrueF 2 (.nativeT ⟨false, [], [.boolV true]⟩ [] [⟨"x", .spatial, .uni 2⟩]) = true := by
  constructor
  · exact (c9_identity_eq 17 closeEx [.ref] exT2 (Or.inl rfl)).2.1
      [⟨"x", .spatial, .uni 2⟩] rfl rfl
  · exact (c9_identity_eq 17 closeEx [.ref] exT2 (Or.inl rfl)).2.2 _
      ((c9_identity_eq 17 closeEx [.ref] exT2 (Or.inl rfl)).2.1
        [⟨"x", .spatial, .uni 2⟩] rfl rfl)

/-- **C1 counterexample** — the claim quantifies over every supported
container, including opaque objects; but the skeleton sentinels are plain
strings, so the opaque string `"__missing__"` collides with the
missing-tensor sentinel: it disassembles to itself and reassembles to
`None`, not to the original string. -/
theorem c1_counterexample :
    disassembleTreeF 5 false (.strP "__missing__") = some (.strP "__missing__", []) ∧
    assembleTreeF 5 (.strP "__missing__") [] = some (.noneP, []) ∧
    PyObj.noneP ≠ PyObj.strP "__missing__" := by
  exact ⟨rfl, rfl, fun h => PyObj.noConfusion h⟩

/-- The containers for which the `disassemble_tree` / `assemble_tree`
round trip reproduces the input exactly: trees that avoid the protocol's
reserved encodings — the sentinel strings `"__missing__"` /
`"__native__"` as opaque leaves, the reserved dict key `"__layout__"`,
and zero-rank NumPy arrays (which reassemble as Python scalars) — and
whose Layouts carry the shape their constructor computes. -/
def roundtrippableF : Nat → PyObj → Bool
  | 0, _ => false
  | f+1, x =>
    match x with
    | .noneP => true
    | .nativeT _ _ _ | .stackT _ _ _ _ | .foreignT _ => true
    | .layoutT o sd sh => (sh == layoutShapeCalc o sd) && roundtrippableF f o
    | .tup xs | .listP xs => xs.all (roundtrippableF f)
    | .dict es =>
      !(es.any (fun kv => kv.1 == "__layout__")) &&
      es.all (fun kv => roundtrippableF f kv.2)
    | .record _ es => es.all (fun kv => roundtrippableF f kv.2)
    | .native a => !(a.isNumpy && a.dims.isEmpty)
    | .strP s => !(s == "__missing__") && !(s == "__native__")
    | .obj _ => true
    | .shapeDict _ => true

-- One-step unfolding lemmas for `disassembleTreeF` (whose equations Lean
-- does not generate directly because it is mutually recursive with
-- `cachedT`).

theorem disF_noneP (f : Nat) (c : Bool) :
    disassembleTreeF (f+1) c .noneP = some (.strP "__missing__", []) := rfl

theorem disF_layoutT (f : Nat) (c : Bool) (o : PyObj) (sd sh : PhShape) :
    disassembleTreeF (f+1) c (.layoutT o sd sh)
      = (disassembleTreeF f c o).bind (fun kv =>
          some (.dict [("__layout__", .native ⟨false, [], [.intV 1]⟩),
                       ("stack_dim", .shapeDict sd), ("obj", kv.1)], kv.2)) := rfl

theorem disF_nativeT (f : Nat) (c : Bool) (a : NArr) (ns s : PhShape) :
    disassembleTreeF (f+1) c (.nativeT a ns s)
      = (if c then (cachedT f (.nativeT a ns s)).bind (fun v => some (.noneP, [v]))
         else some (.noneP, [.nativeT a ns s])) := rfl

theorem disF_stackT (f : Nat) (c : Bool) (cs : List PyObj) (sd : Dim) (vr : Bool)
    (sh : PhShape) :
    disassembleTreeF (f+1) c (.stackT cs sd vr sh)
      = (if c then (cachedT f (.stackT cs sd vr sh)).bind (fun v => some (.noneP, [v]))
         else some (.noneP, [.stackT cs sd vr sh])) := rfl

theorem disF_foreignT (f : Nat) (c : Bool) (k : String) :
    disassembleTreeF (f+1) c (.foreignT k)
      = (if c then (cachedT f (.foreignT k)).bind (fun v => some (.noneP, [v]))
         else some (.noneP, [.foreignT k])) := rfl

theorem disF_tup (f : Nat) (c : Bool) (xs : List PyObj) :
    disassembleTreeF (f+1) c (.tup xs)
      = (xs.mapM (disassembleTreeF f c)).bind (fun rs =>
          some (.tup (rs.map (fun r => r.1)), (rs.map (fun r => r.2)).flatten)) := rfl

theorem disF_listP (f : Nat) (c : Bool) (xs : List PyObj) :
    disassembleTreeF (f+1) c (.listP xs)
      = (xs.mapM (disassembleTreeF f c)).bind (fun rs =>
          some (.listP (rs.map (fun r => r.1)), (rs.map (fun r => r.2)).flatten)) := rfl

theorem disF_dict (f : Nat) (c : Bool) (es : List (String × PyObj)) :
    disassembleTreeF (f+1) c (.dict es)
      = (es.mapM (fun kv => (disassembleTreeF f c kv.2).bind (fun r =>
          some ((kv.1, r.1), r.2)))).bind (fun rs =>
          some (.dict (rs.map (fun r => r.1)), (rs.map (fun r => r.2)).flatten)) := rfl

theorem disF_record (f : Nat) (c : Bool) (nm : String) (es : List (String × PyObj)) :
    disassembleTreeF (f+1) c (.record nm es)
      = (es.mapM (fun kv => (disassembleTreeF f c kv.2).bind (fun r =>
          some ((kv.1, r.1), r.2)))).bind (fun rs =>
          some (.record nm (rs.map (fun r => r.1)), (rs.map (fun r => r.2)).flatten)) := rfl

theorem disF_native (f : Nat) (c : Bool) (a : NArr) :
    disassembleTreeF (f+1) c (.native a)
      = some (.strP "__native__", [.nativeT a (anonDims a.dims) (anonDims a.dims)]) := rfl

theorem disF_strP (f : Nat) (c : Bool) (s : String) :
    disassembleTreeF (f+1) c (.strP s) = some (.strP s, []) := rfl

theorem disF_obj (f : Nat) (c : Bool) (i : Nat) :
    disassembleTreeF (f+1) c (.obj i) = some (.obj i, []) := rfl

theorem disF_shapeDict (f : Nat) (c : Bool) (sh : PhShape) :
    disassembleTreeF (f+1) c (.shapeDict sh) = some (.shapeDict sh, []) := rfl

/-- Auxiliary for C1: assembling the skeletons of a disassembled list of
round-trippable trees, against the concatenation of their leaf lists,
rebuilds the original list and leaves the tail untouched. -/
theorem c1_aux_seq (f : Nat)
    (ih : ∀ x sk ls, roundtrippableF f x = true →
      disassembleTreeF f false x = some (sk, ls) →
      ∀ rest, assembleTreeF f sk (ls ++ rest) = some (x, rest)) :
    ∀ (xs : List PyObj) (rs : List (PyObj × List PyObj)),
      (∀ x ∈ xs, roundtrippableF f x = true) →
      xs.mapM (disassembleTreeF f false) = some rs →
      ∀ rest, assembleSeqF (assembleTreeF f) (rs.map (fun r => r.1))
          ((rs.map (fun r => r.2)).flatten ++ rest) = some (xs, rest) := by
  intro xs
  induction xs with
  | nil =>
    intro rs hall hmap rest
    simp only [List.mapM_nil] at hmap
    cases hmap
    rfl
  | cons x xs' ihx =>
    intro rs hall hmap rest
    rw [List.mapM_cons] at hmap
    cases hd : disassembleTreeF f false x with
    | none => rw [hd] at hmap; cases hmap
    | some r0 =>
      rw [hd] at hmap
      cases hm : xs'.mapM (disassembleTreeF f false) with
      | none => rw [hm] at hmap; cases hmap
      | some rs' =>
        rw [hm] at hmap
        cases hmap
        obtain ⟨sk0, ls0⟩ := r0
        simp only [List.map_cons, List.flatten_cons, assembleSeqF]
        rw [List.append_assoc,
            ih x sk0 ls0 (hall x (List.mem_cons_self x xs')) hd _]
        simp only [Option.bind_eq_bind, Option.some_bind]
        rw [ihx rs' (fun y hy => hall y (List.mem_cons_of_mem _ hy)) hm rest]
        rfl

/-- Auxiliary for C1, the keyed-entries version (dicts and records). -/
theorem c1_aux_entries (f : Nat)
    (ih : ∀ x sk ls, roundtrippableF f x = true →
      disassembleTreeF f false x = some (sk, ls) →
      ∀ rest, assembleTreeF f sk (ls ++ rest) = some (x, rest)) :
    ∀ (es : List (String × PyObj)) (rs : List ((String × PyObj) × List PyObj)),
      (∀ kv ∈ es, roundtrippableF f kv.2 = true) →
      es.mapM (fun kv => (disassembleTreeF f false kv.2).bind (fun r =>
        some ((kv.1, r.1), r.2))) = some rs →
      ∀ rest, assembleEntriesF (assembleTreeF f) (rs.map (fun r => r.1))
          ((rs.map (fun r => r.2)).flatten ++ rest) = some (es, rest) := by
  intro es
  induction es with
  | nil =>
    intro rs hall hmap rest
    simp only [List.mapM_nil] at hmap
    cases hmap
    rfl
  | cons kv es' ihx =>
    intro rs hall hmap rest
    rw [List.mapM_cons] at hmap
    cases hd : disassembleTreeF f false kv.2 with
    | none => rw [hd] at hmap; cases hmap
    | some r0 =>
      rw [hd] at hmap
      simp only [Option.some_bind] at hmap
      cases hm : es'.mapM (fun kv => (disassembleTreeF f false kv.2).bind (fun r =>
          some ((kv.1, r.1), r.2))) with
      | none => rw [hm] at hmap; cases hmap
      | some rs' =>
        rw [hm] at hmap
        cases hmap
        obtain ⟨sk0, ls0⟩ := r0
        simp only [List.map_cons, List.flatten_cons, assembleEntriesF]
        rw [List.append_assoc,
            ih kv.2 sk0 ls0 (hall kv (List.mem_cons_self kv es')) hd _]
        simp only [Option.bind_eq_bind, Option.some_bind]
        rw [ihx rs' (fun y hy => hall y (List.mem_cons_of_mem _ hy)) hm rest]
        rfl

/-- Disassembling dict entries preserves the keys, so a dict with no
reserved "__layout__" key yields a skeleton with no such key either. -/
theorem c1_no_layout_key (f : Nat) :
    ∀ (es : List (String × PyObj)) (rs : List ((String × PyObj) × List PyObj)),
      es.mapM (fun kv => (disassembleTreeF f false kv.2).bind (fun r =>
        some ((kv.1, r.1), r.2))) = some rs →
      (∀ kv ∈ es, (kv.1 == "__layout__") = false) →
      ((rs.map (fun r => r.1)).any (fun kv => kv.1 == "__layout__")) = false := by
  intro es
  induction es with
  | nil =>
    intro rs h _
    simp only [List.mapM_nil] at h
    cases h
    rfl
  | cons kv es' ih =>
    intro rs h hno
    rw [List.mapM_cons] at h
    cases hd : disassembleTreeF f false kv.2 with
    | none => rw [hd] at h; cases h
    | some r0 =>
      rw [hd] at h
      simp only [Option.some_bind] at h
      cases hm : es'.mapM (fun kv => (disassembleTreeF f false kv.2).bind (fun r =>
          some ((kv.1, r.1), r.2))) with
      | none => rw [hm] at h; cases h
      | some rs' =>
        rw [hm] at h
        cases h
        simp only [List.map_cons, List.any_cons, Bool.or_eq_false_iff]
        exact ⟨hno kv (List.mem_cons_self kv es'),
          ih rs' hm (fun kv2 hkv2 => hno kv2 (List.mem_cons_of_mem _ hkv2))⟩

/-- **C1 (amended)** — For every supported nested container `x` that
avoids the protocol's reserved encodings (the sentinel strings
`"__missing__"` / `"__native__"` as opaque leaves, the dict key
`"__layout__"`, and zero-rank NumPy arrays, which reassemble as Python
scalars — see the counterexample), `assemble_tree` applied to the
skeleton and leaf list produced by `disassemble_tree(x, cache=False)`
reproduces a container structurally equal to `x` (consuming exactly its
leaves, any remaining leaves untouched); and `disassemble_tree` run on
structurally equal inputs produces identical skeletons and leaf lists,
in particular leaf lists of equal length in the same order. -/
theorem c1_roundtrip :
    ∀ (f : Nat) (x sk : PyObj) (ls : List PyObj),
      roundtrippableF f x = true →
      disassembleTreeF f false x = some (sk, ls) →
      (∀ rest, assembleTreeF f sk (ls ++ rest) = some (x, rest)) ∧
      (∀ y, y = x → disassembleTreeF f false y = some (sk, ls)) := by
  intro f
  induction f with
  | zero => intro x sk ls hrt; cases hrt
  | succ f ih =>
    intro x sk ls hrt hdis
    refine ⟨?_, fun y hy => hy ▸ hdis⟩
    intro rest
    have ih' : ∀ x sk ls, roundtrippableF f x = true →
        disassembleTreeF f false x = some (sk, ls) →
        ∀ rest, assembleTreeF f sk (ls ++ rest) = some (x, rest) :=
      fun x sk ls h1 h2 => (ih x sk ls h1 h2).1
    match x with
    | .noneP =>
      rw [disF_noneP] at hdis
      cases hdis
      rfl
    | .nativeT a ns s =>
      rw [disF_nativeT] at hdis
      simp only [Bool.false_eq_true, if_false] at hdis
      cases hdis
      rfl
    | .stackT cs sd vr sh =>
      rw [disF_stackT] at hdis
      simp only [Bool.false_eq_true, if_false] at hdis
      cases hdis
      rfl
    | .foreignT k =>
      rw [disF_foreignT] at hdis
      simp only [Bool.false_eq_true, if_false] at hdis
      cases hdis
      rfl
    | .layoutT o sd sh =>
      simp only [roundtrippableF, Bool.and_eq_true, beq_iff_eq] at hrt
      obtain ⟨hsh, hrto⟩ := hrt
      rw [disF_layoutT] at hdis
      cases hd : disassembleTreeF f false o with
      | none => rw [hd] at hdis; cases hdis
      | some kv =>
        rw [hd] at hdis
        simp only [Option.some_bind] at hdis
        cases hdis
        show assembleTreeF (f+1) _ _ = _
        simp only [assembleTreeF]
        have e0 : ("__layout__" == "__layout__") = true := rfl
        have e1 : ("__layout__" == "obj") = false := rfl
        have e2 : ("stack_dim" == "obj") = false := rfl
        have e3 : ("obj" == "obj") = true := rfl
        have e4 : ("__layout__" == "stack_dim") = false := rfl
        have e5 : ("stack_dim" == "stack_dim") = true := rfl
        simp only [List.any_cons, List.any_nil, e0, Bool.true_or, if_true,
          lookupEntry, List.find?, e1, e2, e3, e4, e5, shapeFromDict,
          Option.map_some', Option.some_bind, Option.bind_eq_bind]
        rw [ih' o kv.1 kv.2 hrto hd rest]
        simp only [Option.some_bind, mkLayout, hsh]
    | .tup xs =>
      simp only [roundtrippableF, List.all_eq_true] at hrt
      rw [disF_tup] at hdis
      cases hm : xs.mapM (disassembleTreeF f false) with
      | none => rw [hm] at hdis; cases hdis
      | some rs =>
        rw [hm] at hdis
        simp only [Option.some_bind] at hdis
        cases hdis
        show assembleTreeF (f+1) _ _ = _
        simp only [assembleTreeF]
        rw [c1_aux_seq f ih' xs rs hrt hm rest]
        rfl
    | .listP xs =>
      simp only [roundtrippableF, List.all_eq_true] at hrt
      rw [disF_listP] at hdis
      cases hm : xs.mapM (disassembleTreeF f false) with
      | none => rw [hm] at hdis; cases hdis
      | some rs =>
        rw [hm] at hdis
        simp only [Option.some_bind] at hdis
        cases hdis
        show assembleTreeF (f+1) _ _ = _
        simp only [assembleTreeF]
        rw [c1_aux_seq f ih' xs rs hrt hm rest]
        rfl
    | .dict es =>
      simp only [roundtrippableF, Bool.and_eq_true, List.all_eq_true,
        Bool.not_eq_true', List.any_eq_false] at hrt
      obtain ⟨hnol, hall⟩ := hrt
      rw [disF_dict] at hdis
      cases hm : es.mapM (fun kv => (disassembleTreeF f false kv.2).bind (fun r =>
          some ((kv.1, r.1), r.2))) with
      | none => rw [hm] at hdis; cases hdis
      | some rs =>
        rw [hm] at hdis
        simp only [Option.some_bind] at hdis
        cases hdis
        show assembleTreeF (f+1) _ _ = _
        simp only [assembleTreeF]
        have hany : ((rs.map (fun r => r.1)).any (fun kv => kv.1 == "__layout__")) = false :=
          c1_no_layout_key f es rs hm
            (fun kv2 hkv2 => Bool.eq_false_iff.mpr (hnol kv2 hkv2))
        rw [hany]
        simp only [Bool.false_eq_true, if_false]
        rw [c1_aux_entries f ih' es rs (fun kv hkv => hall kv hkv) hm rest]
        rfl
    | .record nm es =>
      simp only [roundtrippableF, List.all_eq_true] at hrt
      rw [disF_record] at hdis
      cases hm : es.mapM (fun kv => (disassembleTreeF f false kv.2).bind (fun r =>
          some ((kv.1, r.1), r.2))) with
      | none => rw [hm] at hdis; cases hdis
      | some rs =>
        rw [hm] at hdis
        simp only [Option.some_bind] at hdis
        cases hdis
        show assembleTreeF (f+1) _ _ = _
        simp only [assembleTreeF]
        rw [c1_aux_entries f ih' es rs (fun kv hkv => hrt kv hkv) hm rest]
        rfl
    | .native a =>
      simp only [roundtrippableF, Bool.not_eq_true', Bool.and_eq_false_iff] at hrt
      rw [disF_native] at hdis
      cases hdis
      show assembleTreeF (f+1) _ _ = _
      simp only [assembleTreeF]
      rcases hrt with hnp | hne
      · simp [hnp]
      · have : (anonDims a.dims == ([] : PhShape)) = false := by
          match a.dims, hne with
          | d :: ds, _ => rfl
        simp [this]
    | .strP s =>
      simp only [roundtrippableF, Bool.and_eq_true, Bool.not_eq_true'] at hrt
      obtain ⟨h1, h2⟩ := hrt
      rw [disF_strP] at hdis
      cases hdis
      show assembleTreeF (f+1) _ _ = _
      simp only [assembleTreeF]
      rw [h1, h2]
      rfl
    | .obj i =>
      rw [disF_obj] at hdis
      cases hdis
      rfl
    | .shapeDict sh =>
      rw [disF_shapeDict] at hdis
      cases hdis
      rfl

/-- A mixed nested container for the round-trip witness: a tuple holding
None, a NativeTensor, a dict with a list of tensors, a raw (non-numpy)
native array, a Layout and a plain string. -/
def c1Tree : PyObj :=
  .tup [.noneP, exT2, .dict [("k", .listP [exT2, .noneP])],
        .native ⟨false, [2], [.intV 1, .intV 2]⟩,
        mkLayout (.listP [.noneP, .strP "a"]) [⟨"l", .channel, .uni 2⟩],
        .strP "hello"]

/-- The skeleton and leaf list `disassemble_tree(c1Tree, cache=False)`
produces (extracted from the computed result so the witness can restate
them by evaluation). -/
def c1Dis : PyObj × List PyObj :=
  (disassembleTreeF 6 false c1Tree).getD (.noneP, [])

theorem c1_roundtrip_witness :
    roundtrippableF 6 c1Tree = true ∧
    disassembleTreeF 6 false c1Tree = some (c1Dis.1, c1Dis.2) ∧
    assembleTreeF 6 c1Dis.1 (c1Dis.2 ++ [.strP "extra"]) = some (c1Tree, [.strP "extra"]) :=
  ⟨rfl, rfl, (c1_roundtrip 6 c1Tree c1Dis.1 c1Dis.2 rfl rfl).1 [.strP "extra"]⟩

-- ------------------------------------------------------------------
-- C2: idempotent caching.
-- ------------------------------------------------------------------

/-- Well-formedness of the numeric tensor variants as established by
their constructors: a `TensorStack` stores exactly the fields
`TensorStack.__init__` computes (the size-adjusted stack dim, the
varying-shapes flag, the stacked shape), and its components are
themselves numeric tensors (`NativeTensor` or nested `TensorStack`)
whose shapes are free of the stack dimension's name. `NativeTensor` and
`Layout` carry no constructor-derived redundancy relevant here. -/
def wfNumericF : Nat → PyObj → Bool
  | 0, _ => false
  | f+1, t =>
    match t with
    | .nativeT _ _ _ => true
    | .layoutT _ _ _ => true
    | .stackT cs sd vr sh =>
      (sd.size == Size.uni cs.length) &&
      (vr == (mergeShapesL (cs.map shapeOf)).isNone) &&
      (sh == shapeStack sd (cs.map shapeOf)) &&
      cs.all (fun c => (isNativeT c || isStackT c) && !(containsName (shapeOf c) sd.name)) &&
      cs.all (wfNumericF f)
    | _ => false

/-- `mapM` over `Option` preserves length. -/
theorem optionMapM_length {α β : Type} (g : α → Option β) :
    ∀ (l : List α) (rs : List β), l.mapM g = some rs → rs.length = l.length := by
  intro l
  induction l with
  | nil => intro rs h; simp only [List.mapM_nil] at h; cases h; rfl
  | cons a l ih =>
    intro rs h
    rw [List.mapM_cons] at h
    cases hg : g a with
    | none => rw [hg] at h; cases h
    | some b =>
      rw [hg] at h
      cases hm : l.mapM g with
      | none => rw [hm] at h; cases h
      | some rs' => rw [hm] at h; cases h; simp [ih rs' hm]

/-- A traversal that fixes every element of a list returns the list. -/
theorem optionMapM_self {α : Type} (g : α → Option α) :
    ∀ (l : List α), (∀ a ∈ l, g a = some a) → l.mapM g = some l := by
  intro l
  induction l with
  | nil => intro _; rfl
  | cons a l ih =>
    intro h
    rw [List.mapM_cons, h a (List.mem_cons_self a l),
      ih (fun b hb => h b (List.mem_cons_of_mem _ hb))]
    rfl

/-- Mapping a function over `mapM` results agrees with mapping over the
inputs whenever the two functions agree across the traversal. -/
theorem optionMapM_map {α β γ : Type} (g : α → Option β) (h : β → γ) (h2 : α → γ) :
    ∀ (l : List α) (rs : List β), l.mapM g = some rs →
      (∀ a ∈ l, ∀ b, g a = some b → h b = h2 a) →
      rs.map h = l.map h2 := by
  intro l
  induction l with
  | nil => intro rs hm _; simp only [List.mapM_nil] at hm; cases hm; rfl
  | cons a l ih =>
    intro rs hm hag
    rw [List.mapM_cons] at hm
    cases hg : g a with
    | none => rw [hg] at hm; cases hm
    | some b =>
      rw [hg] at hm
      cases hl : l.mapM g with
      | none => rw [hl] at hm; cases hm
      | some rs' =>
        rw [hl] at hm
        cases hm
        simp only [List.map_cons]
        rw [hag a (List.mem_cons_self a l) b hg,
          ih rs' hl (fun x hx => hag x (List.mem_cons_of_mem _ hx))]

/-- Flattening a list of singleton lists gives back the elements. -/
theorem flatten_singletons {α : Type} : ∀ (l : List α),
    (l.map (fun v => [v])).flatten = l := by
  intro l
  induction l with
  | nil => rfl
  | cons a l ih => simp [ih]

/-- The numeric variants are tensors. -/
theorem tensor_of_numeric (v : PyObj) (h : (isNativeT v || isStackT v) = true) :
    isTensor v = true := by
  cases v <;> first | rfl | exact Bool.noConfusion h

-- One-step unfolding lemmas for `cachedT` (mutually recursive with the
-- tree protocol, so Lean generates no direct equations).

theorem cachedT_native (f : Nat) (arr : NArr) (ns s : PhShape) :
    cachedT (f+1) (.nativeT arr ns s) = nativeCached arr ns s := rfl

theorem cachedT_layout (f : Nat) (o : PyObj) (sd sh : PhShape) :
    cachedT (f+1) (.layoutT o sd sh) = some (.layoutT o sd sh) := rfl

theorem cachedT_stack (f : Nat) (cs : List PyObj) (sd : Dim) (vr : Bool) (sh : PhShape) :
    cachedT (f+1) (.stackT cs sd vr sh)
      = (do
          let innersObj ← cachedT f (.tup cs)
          let inners ← match innersObj with
            | .tup l => some l
            | _ => none
          if requiresBroadcast (.stackT cs sd vr sh) then mkStack inners sd
          else do
            let natives ← inners.mapM (fun c => tensorNativeF f c (namesOf (shapeOf c)) true)
            some (.nativeT (stackA natives (indexOfName sh sd.name)) sh sh)) := rfl

theorem cachedT_tup (f : Nat) (xs : List PyObj) :
    cachedT (f+1) (.tup xs)
      = (disassembleTreeF f true (.tup xs)).bind (fun tt =>
          (assembleTreeF f tt.1 tt.2).bind (fun r => some r.1)) := rfl

/-- With `cache=True`, disassembling a list of numeric tensors caches
each element and wraps it as a single-leaf subtree. -/
theorem c2_dis_list (p : Nat) :
    ∀ (cs : List PyObj), (∀ c ∈ cs, (isNativeT c || isStackT c) = true) →
      cs.mapM (disassembleTreeF (p+1) true)
        = (cs.mapM (cachedT p)).map
            (List.map (fun v => ((PyObj.noneP : PyObj), [v]))) := by
  intro cs
  induction cs with
  | nil => intro _; rfl
  | cons c cs ih =>
    intro h
    rw [List.mapM_cons, List.mapM_cons]
    have hc := h c (List.mem_cons_self c cs)
    have hdis : disassembleTreeF (p+1) true c
        = (cachedT p c).bind (fun v => some (.noneP, [v])) := by
      cases c <;> first | rfl | exact Bool.noConfusion hc
    rw [hdis, ih (fun x hx => h x (List.mem_cons_of_mem _ hx))]
    cases hg : cachedT p c with
    | none => simp [hg]
    | some v =>
      cases hm : cs.mapM (cachedT p) with
      | none => simp [hg, hm]
      | some vs => simp [hg, hm]

/-- Disassembling a tuple of numeric tensors with `cache=True`: the
skeleton is a tuple of `None` placeholders and the leaves are the cached
elements in order. -/
theorem c2_dis_tup (p : Nat) (cs : List PyObj)
    (h : ∀ c ∈ cs, (isNativeT c || isStackT c) = true) :
    disassembleTreeF (p+2) true (.tup cs)
      = (cs.mapM (cachedT p)).bind (fun vs =>
          some (.tup (vs.map (fun x => (PyObj.noneP : PyObj))), vs)) := by
  rw [disF_tup, c2_dis_list p cs h]
  cases hm : cs.mapM (cachedT p) with
  | none => rfl
  | some vs =>
    simp only [Option.map_some', Option.some_bind, List.map_map, Function.comp_def]
    rw [flatten_singletons]

/-- One-step unfolding of `assemble_tree` at a `None` placeholder with a
nonempty leaf list. -/
theorem asmF_noneP_cons (f : Nat) (v : PyObj) (rest : List PyObj) :
    assembleTreeF (f+1) .noneP (v :: rest)
      = (if isTensor v then some (v, rest) else none) := rfl

/-- One-step unfolding of `assemble_tree` at a tuple skeleton. -/
theorem asmF_tup (f : Nat) (xs : List PyObj) (values : List PyObj) :
    assembleTreeF (f+1) (.tup xs) values
      = (assembleSeqF (assembleTreeF f) xs values).bind (fun r => some (.tup r.1, r.2)) := rfl

/-- One step of the skeleton-sequence loop on a `None` placeholder. -/
theorem seq_cons_unfold (m : Nat) (v : PyObj) (vs rest : List PyObj) :
    assembleSeqF (assembleTreeF (m+1)) (PyObj.noneP :: vs.map (fun _ => PyObj.noneP))
        (v :: (vs ++ rest))
      = (assembleTreeF (m+1) .noneP (v :: (vs ++ rest))).bind (fun r =>
          (assembleSeqF (assembleTreeF (m+1)) (vs.map (fun _ => PyObj.noneP)) r.2).bind (fun rr =>
            some (r.1 :: rr.1, rr.2))) := rfl

/-- Assembling a run of `None` placeholders pops one tensor leaf each. -/
theorem c2_asm_seq (m : Nat) :
    ∀ (vs rest : List PyObj), (∀ v ∈ vs, isTensor v = true) →
      assembleSeqF (assembleTreeF (m+1)) (vs.map (fun _ => PyObj.noneP)) (vs ++ rest)
        = some (vs, rest) := by
  intro vs
  induction vs with
  | nil => intro rest _; rfl
  | cons v vs ih =>
    intro rest h
    rw [List.map_cons, List.cons_append, seq_cons_unfold, asmF_noneP_cons,
      if_pos (h v (List.mem_cons_self v vs))]
    simp only [Option.some_bind]
    rw [ih rest (fun x hx => h x (List.mem_cons_of_mem _ hx))]
    rfl

/-- Assembling a tuple skeleton of `None` placeholders against exactly
its tensor leaves rebuilds the tuple and consumes every leaf. -/
theorem c2_asm_tup (m : Nat) (vs : List PyObj) (h : ∀ v ∈ vs, isTensor v = true) :
    assembleTreeF (m+2) (.tup (vs.map (fun _ => PyObj.noneP))) vs
      = some (.tup vs, []) := by
  have h2 := c2_asm_seq m vs [] h
  rw [List.append_nil] at h2
  rw [asmF_tup (m+1), h2]
  rfl

/-- Work lemma for C2, by strong induction on fuel: a successful
`cached` run yields a fixpoint of `cached` at the same fuel, preserves
the declared shape, and — unless it returned its argument unchanged —
produces a numeric tensor; the per-variant clauses of the claim are
carried along. -/
theorem c2_aux : ∀ (f : Nat) (t u : PyObj) (g : Nat),
    wfNumericF g t = true → cachedT f t = some u →
    cachedT f u = some u ∧ shapeOf u = shapeOf t ∧
    ((isNativeT u || isStackT u) = true ∨ u = t) ∧
    (isLayoutT t = true → u = t) ∧
    (isNativeT t = true → ∃ a s, u = PyObj.nativeT a s s) ∧
    (isStackT t = true → requiresBroadcast t = false → ∃ a s, u = PyObj.nativeT a s s) ∧
    (isStackT t = true → requiresBroadcast t = true →
      ∃ cs sd vr sh p us, t = PyObj.stackT cs sd vr sh ∧ f = p + 4 ∧
        cs.mapM (cachedT p) = some us ∧ u = PyObj.stackT us sd vr sh) := by
  intro f
  induction f using Nat.strong_induction_on with
  | _ f ih =>
  intro t u g hwf hc
  cases g with
  | zero => exact Bool.noConfusion hwf
  | succ g =>
  cases f with
  | zero => exact Option.noConfusion hc
  | succ f =>
  cases t with
  | noneP => exact Bool.noConfusion hwf
  | tup xs => exact Bool.noConfusion hwf
  | listP xs => exact Bool.noConfusion hwf
  | dict es => exact Bool.noConfusion hwf
  | record nm es => exact Bool.noConfusion hwf
  | native a => exact Bool.noConfusion hwf
  | strP s => exact Bool.noConfusion hwf
  | obj i => exact Bool.noConfusion hwf
  | shapeDict sh0 => exact Bool.noConfusion hwf
  | foreignT k => exact Bool.noConfusion hwf
  | layoutT o sd sh =>
    rw [cachedT_layout] at hc
    cases hc
    exact ⟨cachedT_layout f o sd sh, rfl, Or.inr rfl, fun _ => rfl,
      fun h => Bool.noConfusion h, fun h => Bool.noConfusion h,
      fun h => Bool.noConfusion h⟩
  | nativeT arr ns s =>
    rw [cachedT_native] at hc
    unfold nativeCached at hc
    by_cases hns : (ns == s) = true
    · rw [if_pos hns] at hc
      cases hc
      have hnseq : ns = s := by simpa using hns
      refine ⟨?_, rfl, Or.inl rfl, fun h => Bool.noConfusion h,
        fun _ => ⟨arr, s, by rw [hnseq]⟩,
        fun h => Bool.noConfusion h, fun h => Bool.noConfusion h⟩
      rw [cachedT_native]
      unfold nativeCached
      rw [if_pos hns]
    · rw [if_neg hns] at hc
      cases htr : transposedNativeN arr ns s (namesOf s) true with
      | none => rw [htr] at hc; exact Option.noConfusion hc
      | some a =>
        rw [htr] at hc
        cases hc
        refine ⟨?_, rfl, Or.inl rfl, fun h => Bool.noConfusion h,
          fun _ => ⟨a, s, rfl⟩, fun h => Bool.noConfusion h,
          fun h => Bool.noConfusion h⟩
        rw [cachedT_native]
        unfold nativeCached
        rw [if_pos (show (s == s) = true by simp)]
  | stackT cs sd vr sh =>
    simp only [wfNumericF, Bool.and_eq_true, beq_iff_eq, List.all_eq_true] at hwf
    obtain ⟨⟨⟨⟨hsz, hvr⟩, hsh⟩, hcomp⟩, hwfc⟩ := hwf
    rw [cachedT_stack] at hc
    cases f with
    | zero => exact Option.noConfusion hc
    | succ n =>
    rw [cachedT_tup] at hc
    cases n with
    | zero => exact Option.noConfusion hc
    | succ q =>
    cases cs with
    | nil =>
      have hvrf : vr = false := by rw [hvr]; rfl
      have hinner0 : ((disassembleTreeF (q+1) true (.tup ([] : List PyObj))).bind
          (fun tt => (assembleTreeF (q+1) tt.1 tt.2).bind (fun r => some r.1)))
            = some (.tup []) := rfl
      rw [hinner0] at hc
      have hrbf : requiresBroadcast (.stackT ([] : List PyObj) sd vr sh) = false := by
        rw [show requiresBroadcast (.stackT ([] : List PyObj) sd vr sh)
          = (vr || false) from rfl, Bool.or_false, hvrf]
      have hc2 : (if requiresBroadcast (.stackT ([] : List PyObj) sd vr sh)
          then mkStack [] sd
          else some (.nativeT (stackA [] (indexOfName sh sd.name)) sh sh)) = some u := hc
      rw [if_neg (show ¬(requiresBroadcast (.stackT ([] : List PyObj) sd vr sh) = true)
        from fun hh => by rw [hrbf] at hh; exact Bool.noConfusion hh)] at hc2
      cases hc2
      refine ⟨?_, rfl, Or.inl rfl, fun h => Bool.noConfusion h,
        fun h => Bool.noConfusion h,
        fun _ _ => ⟨stackA [] (indexOfName sh sd.name), sh, rfl⟩,
        fun _ hrbt => by rw [hrbf] at hrbt; exact Bool.noConfusion hrbt⟩
      rw [cachedT_native]
      unfold nativeCached
      rw [if_pos (show (sh == sh) = true by simp)]
    | cons c cs' =>
      cases q with
      | zero =>
        rw [disF_tup, List.mapM_cons,
          show disassembleTreeF 0 true c = none from rfl] at hc
        exact Option.noConfusion hc
      | succ p =>
      have hns0 : ∀ x ∈ (c :: cs'), (isNativeT x || isStackT x) = true :=
        fun x hx => (hcomp x hx).1
      cases hm : (c :: cs').mapM (cachedT p) with
      | none =>
        rw [c2_dis_tup p (c :: cs') hns0, hm] at hc
        exact Option.noConfusion hc
      | some vs =>
      have hcomps : ∀ v ∈ vs, cachedT p v = some v ∧ (isNativeT v || isStackT v) = true := by
        intro v hv
        obtain ⟨c0, hcm, hc0⟩ := optionMapM_mem (cachedT p) (c :: cs') vs hm v hv
        obtain ⟨hfix, _, hor, _⟩ := ih p (by omega) c0 v g (hwfc c0 hcm) hc0
        refine ⟨hfix, ?_⟩
        rcases hor with h1 | h1
        · exact h1
        · rw [h1]; exact (hcomp c0 hcm).1
      have htens : ∀ v ∈ vs, isTensor v = true :=
        fun v hv => tensor_of_numeric v (hcomps v hv).2
      have hmap : vs.map shapeOf = (c :: cs').map shapeOf :=
        optionMapM_map (cachedT p) shapeOf shapeOf (c :: cs') vs hm
          (fun a ha b hb => (ih p (by omega) a b g (hwfc a ha) hb).2.1)
      have hlen := optionMapM_length (cachedT p) (c :: cs') vs hm
      have hasm := c2_asm_tup p vs htens
      have hinner : ((disassembleTreeF (p+2) true (.tup (c :: cs'))).bind
          (fun tt => (assembleTreeF (p+2) tt.1 tt.2).bind (fun r => some r.1)))
            = some (.tup vs) := by
        rw [c2_dis_tup p (c :: cs') hns0, hm]
        simp only [Option.some_bind]
        rw [hasm]
        rfl
      rw [hinner] at hc
      have hc2 : (if requiresBroadcast (.stackT (c :: cs') sd vr sh)
          then mkStack vs sd
          else (vs.mapM (fun c0 => tensorNativeF (p+3) c0 (namesOf (shapeOf c0)) true)).bind
            (fun natives =>
              some (.nativeT (stackA natives (indexOfName sh sd.name)) sh sh))) = some u := hc
      by_cases hrb : requiresBroadcast (.stackT (c :: cs') sd vr sh) = true
      · rw [if_pos hrb] at hc2
        have hsd : (⟨sd.name, sd.type, Size.uni vs.length⟩ : Dim) = sd := by
          rw [hlen, ← hsz]
        have hvr2 : (mergeShapesL (vs.map shapeOf)).isNone = vr := by
          rw [hmap, ← hvr]
        have hsh2 : shapeStack sd (vs.map shapeOf) = sh := by
          rw [hmap, ← hsh]
        have hu : u = .stackT vs sd vr sh := by
          rw [mkStack_some vs sd u hc2, hsd, hvr2, hsh2]
        subst hu
        -- components of the result are nonempty and share head shape
        have hvsm : vs.mapM (cachedT p) = some vs :=
          optionMapM_self (cachedT p) vs (fun v hv => (hcomps v hv).1)
        have hinner2 : ((disassembleTreeF (p+2) true (.tup vs)).bind
            (fun tt => (assembleTreeF (p+2) tt.1 tt.2).bind (fun r => some r.1)))
              = some (.tup vs) := by
          rw [c2_dis_tup p vs (fun v hv => (hcomps v hv).2), hvsm]
          simp only [Option.some_bind]
          rw [hasm]
          rfl
        have hrbu : requiresBroadcast (.stackT vs sd vr sh) = true := by
          cases vs with
          | nil => exact absurd hlen (by simp)
          | cons v0 vs0 =>
            simp only [List.map_cons] at hmap
            have h1 : shapeOf v0 = shapeOf c := (List.cons.injEq _ _ _ _ ▸ hmap).1
            simp only [requiresBroadcast, List.headD_cons, h1]
            simp only [requiresBroadcast, List.headD_cons] at hrb
            exact hrb
        refine ⟨?_, rfl, Or.inl rfl, fun h => Bool.noConfusion h,
          fun h => Bool.noConfusion h,
          fun _ hrbf => absurd hrb (by rw [hrbf]; exact fun hh => Bool.noConfusion hh),
          fun _ _ => ⟨c :: cs', sd, vr, sh, p, vs, rfl, rfl, hm, rfl⟩⟩
        rw [cachedT_stack, cachedT_tup, hinner2]
        exact (show (if requiresBroadcast (.stackT vs sd vr sh)
            then mkStack vs sd
            else (vs.mapM (fun c0 => tensorNativeF (p+3) c0 (namesOf (shapeOf c0)) true)).bind
              (fun natives =>
                some (.nativeT (stackA natives (indexOfName sh sd.name)) sh sh)))
              = some (.stackT vs sd vr sh)
          from by rw [if_pos hrbu]; exact hc2)
      · rw [if_neg hrb] at hc2
        cases hn : vs.mapM (fun c0 => tensorNativeF (p+3) c0 (namesOf (shapeOf c0)) true) with
        | none => rw [hn] at hc2; exact Option.noConfusion hc2
        | some nats =>
          rw [hn] at hc2
          cases hc2
          refine ⟨?_, rfl, Or.inl rfl, fun h => Bool.noConfusion h,
            fun h => Bool.noConfusion h,
            fun _ _ => ⟨stackA nats (indexOfName sh sd.name), sh, rfl⟩,
            fun _ hrbt => absurd hrbt hrb⟩
          rw [cachedT_native]
          unfold nativeCached
          rw [if_pos (show (sh == sh) = true by simp)]

/-- **C2** — Idempotent caching: for every well-formed Tensor `t` of
variant NativeTensor, TensorStack or Layout (well-formed meaning the
TensorStack fields are the ones `TensorStack.__init__` computes, with
numeric components — the invariant C6 shows the constructor
establishes), a successful run `cached(t) = u` satisfies
`cached(u) = u`, so `cached(cached(t))` is structurally and value-equal
to `cached(t)`; moreover `cached` preserves the declared shape, leaves a
Layout unchanged, makes a NativeTensor contiguous (expanded shape equals
native shape), turns a non-broadcast-requiring TensorStack into a single
contiguous NativeTensor, and for a broadcast-requiring TensorStack
recurses: the result is a TensorStack over the cached components with
the same stack dimension, varying flag and shape. (`fuel` is the
termination measure of the embedding; `wfNumericF`'s fuel argument only
bounds nesting depth.) -/
theorem c2_cached_idempotent (f g : Nat) (t u : PyObj)
    (hwf : wfNumericF g t = true) (hc : cachedT f t = some u) :
    cachedT f u = some u ∧ shapeOf u = shapeOf t ∧
    (isLayoutT t = true → u = t) ∧
    (isNativeT t = true → ∃ a s, u = PyObj.nativeT a s s) ∧
    (isStackT t = true → requiresBroadcast t = false → ∃ a s, u = PyObj.nativeT a s s) ∧
    (isStackT t = true → requiresBroadcast t = true →
      ∃ cs sd vr sh p us, t = PyObj.stackT cs sd vr sh ∧ f = p + 4 ∧
        cs.mapM (cachedT p) = some us ∧ u = PyObj.stackT us sd vr sh) := by
  obtain ⟨h1, h2, _, h4, h5, h6, h7⟩ := c2_aux f t u g hwf hc
  exact ⟨h1, h2, h4, h5, h6, h7⟩

/-- A broadcast-requiring TensorStack (components of different sizes
along `x`), built by the constructor. -/
def c2T : PyObj := (mkStack [exT2, exT3] ⟨"s", .batch, .uni 0⟩).getD .noneP

/-- Its cached form. -/
def c2U : PyObj := (cachedT 10 c2T).getD .noneP

theorem c2_cached_idempotent_witness :
    wfNumericF 3 c2T = true ∧ cachedT 10 c2T = some c2U ∧ cachedT 10 c2U = some c2U :=
  ⟨rfl, rfl, (c2_cached_idempotent 10 3 c2T c2U rfl rfl).1⟩
